import Mathlib

/-!
A shallow embedding of the CSC110 California-wildfire visualisation project
(`fire_classes.py`, `data_functions.py`, `scrollable_classes.py`,
`graphics_functions.py`, `county_mapping.py`, `main.py`) together with proofs
about the embedded operations.

Modelling conventions:
* Python `int` is `Int`; Python machine floats are modelled by exact
  unnormalised fractions (`Frac`, numerator and positive denominator), which
  agree with IEEE float arithmetic on every computation these claims touch
  (all intermediate values are small dyadic-izable rationals, and the only
  fact used about general inputs is exact vanishing of a variance, which is
  exact in floats for equal integer inputs).
* Python `dict` is an insertion-ordered association list (`List (K × V)`);
  `dictLookup` is first-match lookup, `dictInsert` is `d[k] = v`.
* Exceptions are modelled with `Except PyError`; `random.choice` is modelled
  by an explicit oracle `σ : Nat → Nat` consumed at statically assigned draw
  indices, reduced modulo the population size.
* `pygame` font metrics are modelled by an abstract width function
  `sizeW : FontTag → String → Nat`.
-/

/-- The runtime errors the embedded code can raise.  `zeroDivisionError`,
`keyError` and `indexError` are the Python exceptions actually reachable in
the source.  `degenerateInputError` and `unknownCountyError` are modelled
from the spec: the spec names a `DegenerateInputError` and an
`UnknownCountyError`, but no such classes exist anywhere in the repository;
the constructors exist only so that statements can compare the spec's claimed
error against the error the code actually raises. -/
inductive PyError where
  | zeroDivisionError
  | keyError
  | indexError
  | degenerateInputError
  | unknownCountyError
deriving DecidableEq, Repr

instance [DecidableEq ε] [DecidableEq α] : DecidableEq (Except ε α) := fun x y =>
  match x, y with
  | .ok a, .ok b => decidable_of_iff (a = b) (by simp)
  | .ok _, .error _ => isFalse (fun h => Except.noConfusion h)
  | .error _, .ok _ => isFalse (fun h => Except.noConfusion h)
  | .error e, .error f => decidable_of_iff (e = f) (by simp)

/-- An exact unnormalised fraction, modelling a Python float value.  All
fractions built by the embedded code keep a positive denominator. -/
structure Frac where
  n : Int
  d : Int
deriving DecidableEq, Repr

/-- Embed a Python int appearing in a float computation. -/
def Frac.ofInt (i : Int) : Frac := ⟨i, 1⟩

/-- Float addition, exactly. -/
def Frac.add (a b : Frac) : Frac := ⟨a.n * b.d + b.n * a.d, a.d * b.d⟩

/-- Float subtraction, exactly. -/
def Frac.sub (a b : Frac) : Frac := ⟨a.n * b.d - b.n * a.d, a.d * b.d⟩

/-- Float multiplication, exactly. -/
def Frac.mul (a b : Frac) : Frac := ⟨a.n * b.n, a.d * b.d⟩

/-- Float (true) division, exactly.  Callers guard the divisor against zero,
mirroring Python's `ZeroDivisionError`. -/
def Frac.div (a b : Frac) : Frac := ⟨a.n * b.d, a.d * b.n⟩

/-- Python `int(x)` on a float: truncation toward zero.  Correct whenever the
denominator is positive, which holds for every fraction the code builds. -/
def pyInt (a : Frac) : Int := a.n.tdiv a.d

/-- First-match lookup in an insertion-ordered dict (`d[k]` / `k in d`). -/
def dictLookup [DecidableEq K] : List (K × V) → K → Option V
  | [], _ => none
  | p :: rest, k => if p.1 = k then some p.2 else dictLookup rest k

/-- Python `k in d`. -/
def dictContains [DecidableEq K] : List (K × V) → K → Bool
  | [], _ => false
  | p :: rest, k => if p.1 = k then true else dictContains rest k

/-- Python `d[k] = v`: replace the entry if the key is present, otherwise
append a new entry (insertion order). -/
def dictInsert [DecidableEq K] (d : List (K × V)) (k : K) (v : V) : List (K × V) :=
  if dictContains d k then d.map (fun p => if p.1 = k then (p.1, v) else p)
  else d ++ [(k, v)]

/-- `fire_classes.CaliFire`: a single California fire. -/
structure CaliFire where
  year : Int
  county : String
  acreage : Int
  cause : String
  structures_destroyed : Int
deriving DecidableEq, Repr

/-- `fire_classes.CaliFireSeason`: a yearly fire season. -/
structure CaliFireSeason where
  year : Int
  fires : Int
  acreage : Int
  top_five : List CaliFire
deriving DecidableEq, Repr

/-- `sum(xs) / len(xs)`: the `avr_x` / `avr_y` locals of the extrapolation
functions.  Callers guard against the empty list. -/
def avgF (xs : List Int) : Frac :=
  Frac.div (Frac.ofInt xs.sum) (Frac.ofInt xs.length)

/-- The `b_numerator` local: `sum((xs[i]-avr_x) * (ys[i]-avr_y) for i in
range(len(ys)))` (callers guard `len(xs) ≥ len(ys)`, so the zip truncates at
exactly `len(ys)` terms). -/
def covarianceSum (xs ys : List Int) : Frac :=
  (List.zipWith
    (fun x y => Frac.mul (Frac.sub (Frac.ofInt x) (avgF xs))
                         (Frac.sub (Frac.ofInt y) (avgF ys)))
    xs ys).foldl Frac.add (Frac.ofInt 0)

/-- The `b_denominator` local: `sum((xs[i]-avr_x) ** 2 for i in
range(len(xs)))`. -/
def varianceSum (xs : List Int) : Frac :=
  (xs.map (fun x => Frac.mul (Frac.sub (Frac.ofInt x) (avgF xs))
                             (Frac.sub (Frac.ofInt x) (avgF xs)))).foldl
    Frac.add (Frac.ofInt 0)

/-- The slope `b = b_numerator / b_denominator`; callers guard the divisor. -/
def regressionB (xs ys : List Int) : Frac :=
  Frac.div (covarianceSum xs ys) (varianceSum xs)

/-- The intercept `a = avr_y - b * avr_x`. -/
def regressionA (xs ys : List Int) : Frac :=
  Frac.sub (avgF ys) (Frac.mul (regressionB xs ys) (avgF xs))

/-- `data_functions.extrapolate_num_fires`: least-squares line through
(years, fires), evaluated at the years 2021 … 2020+n.  The guards model the
Python exceptions: `sum(..)/len(..)` with an empty list raises
`ZeroDivisionError`; `years[i]` for `i in range(len(fires))` raises
`IndexError` when `fires` is longer than `years`; and the division by the
variance `b_denominator` raises `ZeroDivisionError` when it is zero. -/
def extrapolate_num_fires (years fires : List Int) (n : Nat) :
    Except PyError (List Int) :=
  if years.length = 0 ∨ fires.length = 0 then .error .zeroDivisionError
  else if years.length < fires.length then .error .indexError
  else if (varianceSum years).n = 0 then .error .zeroDivisionError
  else
    .ok ((List.range n).map
      (fun i : Nat => pyInt (Frac.add (regressionA years fires)
        (Frac.mul (Frac.ofInt (2021 + (i : Int))) (regressionB years fires)))))

/-- `data_functions.extrapolate_acreages`: least-squares line through
(fires, acreages), evaluated at each predicted fire count.  Guards as in
`extrapolate_num_fires`. -/
def extrapolate_acreages (fires acreages next_fires : List Int) :
    Except PyError (List Int) :=
  if fires.length = 0 ∨ acreages.length = 0 then .error .zeroDivisionError
  else if acreages.length < fires.length then .error .indexError
  else if (varianceSum fires).n = 0 then .error .zeroDivisionError
  else
    .ok (next_fires.map
      (fun f => pyInt (Frac.add (regressionA fires acreages)
        (Frac.mul (Frac.ofInt f) (regressionB fires acreages)))))

/-- `random.choice(l)`: the oracle `σ` supplies the draw at index `k`, reduced
modulo the population size.  Python raises `IndexError` on an empty sequence. -/
def randomChoice (σ : Nat → Nat) (k : Nat) (l : List α) : Except PyError α :=
  match l.get? (σ k % l.length) with
  | some a => .ok a
  | none => .error .indexError

/-- Draw `m` choices from `counties` at oracle indices `k, k+1, …`; models the
list comprehension `[random.choice(counties) for _ in range(5)]`. -/
def chooseCounties (σ : Nat → Nat) (counties : List String) (k : Nat) :
    Nat → Except PyError (List String)
  | 0 => .ok []
  | m + 1 =>
    match randomChoice σ k counties with
    | .error e => .error e
    | .ok c =>
      match chooseCounties σ counties (k + 1) m with
      | .error e => .error e
      | .ok cs => .ok (c :: cs)

/-- `data_functions.predict_next_five_counties`. -/
def predict_next_five_counties (counties : List String) (σ : Nat → Nat) (k : Nat) :
    Except PyError (List String) :=
  chooseCounties σ counties k 5

/-- `data_functions.predict_cause`. -/
def predict_cause (causes : List String) (σ : Nat → Nat) (k : Nat) :
    Except PyError String :=
  randomChoice σ k causes

/-- The loop body of `predict_next_top_five`: for the `j`-th chosen county,
look its causes up (`counties_causes[county]`, a `KeyError` when absent), draw
a cause at oracle index `k+5+j`, and build the synthetic record with dummy
acreage 90000 and 32 structures destroyed. -/
def buildTopFive (year : Int) (counties_causes : List (String × List String))
    (σ : Nat → Nat) (k : Nat) : List String → Nat → Except PyError (List CaliFire)
  | [], _ => .ok []
  | county :: rest, j =>
    match dictLookup counties_causes county with
    | none => .error .keyError
    | some causes =>
      match predict_cause causes σ (k + 5 + j) with
      | .error e => .error e
      | .ok cause =>
        match buildTopFive year counties_causes σ k rest (j + 1) with
        | .error e => .error e
        | .ok tf => .ok (⟨year, county, 90000, cause, 32⟩ :: tf)

/-- `data_functions.predict_next_top_five`. -/
def predict_next_top_five (year : Int) (counties : List String)
    (counties_causes : List (String × List String)) (σ : Nat → Nat) (k : Nat) :
    Except PyError (List CaliFire) :=
  match predict_next_five_counties counties σ k with
  | .error e => .error e
  | .ok five_counties => buildTopFive year counties_causes σ k five_counties 0

/-- One iteration of the county/cause collection loop of
`predict_fire_season_data`: append the fire's county to `all_counties`, create
the county's (empty) cause list if absent, then append the fire's cause. -/
def collectStep (acc : List String × List (String × List String)) (fire : CaliFire) :
    List String × List (String × List String) :=
  let all_counties := acc.1 ++ [fire.county]
  let cc0 := if dictContains acc.2 fire.county then acc.2 else acc.2 ++ [(fire.county, [])]
  (all_counties, cc0.map (fun p => if p.1 = fire.county then (p.1, p.2 ++ [fire.cause]) else p))

/-- The `all_counties` list built by `predict_fire_season_data`'s nested loop
over every season's top five. -/
def all_counties_of (seasons : List (Int × CaliFireSeason)) : List String :=
  (seasons.foldl (fun acc p => p.2.top_five.foldl collectStep acc) ([], [])).1

/-- The `counties_causes` dict built by `predict_fire_season_data`'s nested
loop over every season's top five. -/
def counties_causes_of (seasons : List (Int × CaliFireSeason)) :
    List (String × List String) :=
  (seasons.foldl (fun acc p => p.2.top_five.foldl collectStep acc) ([], [])).2

/-- The final loop of `predict_fire_season_data`: for years 2021, 2022, …,
predict a top five (10 oracle draws per year) and insert the new season. -/
def predictLoop (all_counties : List String)
    (counties_causes : List (String × List String)) (σ : Nat → Nat) (year : Int)
    (k : Nat) : List (Int × Int) → List (Int × CaliFireSeason) →
    Except PyError (List (Int × CaliFireSeason))
  | [], seasons => .ok seasons
  | (fires, acreage) :: rest, seasons =>
    match predict_next_top_five year all_counties counties_causes σ k with
    | .error e => .error e
    | .ok top_five =>
      predictLoop all_counties counties_causes σ (year + 1) (k + 10) rest
        (dictInsert seasons year ⟨year, fires, acreage, top_five⟩)

/-- `data_functions.predict_fire_season_data`: extrapolate the next `n` fire
counts and acreages and insert a synthetic season for each of the years
2021 … 2020+n into the dict. -/
def predict_fire_season_data (seasons : List (Int × CaliFireSeason)) (n : Nat)
    (σ : Nat → Nat) : Except PyError (List (Int × CaliFireSeason)) :=
  let all_years := seasons.map (fun p => p.2.year)
  let all_num_fires := seasons.map (fun p => p.2.fires)
  let all_acreage := seasons.map (fun p => p.2.acreage)
  match extrapolate_num_fires all_years all_num_fires n with
  | .error e => .error e
  | .ok next_fires =>
    match extrapolate_acreages all_num_fires all_acreage next_fires with
    | .error e => .error e
    | .ok next_acreages =>
      predictLoop (all_counties_of seasons) (counties_causes_of seasons) σ 2021 0
        (next_fires.zip next_acreages) seasons

/-- `colour_fonts.WHITE`. -/
def WHITE : Int × Int × Int := (255, 255, 255)

/-- `colour_fonts.BLACK`. -/
def BLACK : Int × Int × Int := (0, 0, 0)

/-- `colour_fonts.RED`. -/
def RED : Int × Int × Int := (255, 0, 0)

/-- `colour_fonts.LIGHT_RED`. -/
def LIGHT_RED : Int × Int × Int := (255, 125, 125)

/-- `colour_fonts.ORANGE`. -/
def ORANGE : Int × Int × Int := (255, 127, 0)

/-- `colour_fonts.LIGHT_ORANGE`. -/
def LIGHT_ORANGE : Int × Int × Int := (255, 190, 125)

/-- `colour_fonts.YELLOW`. -/
def YELLOW : Int × Int × Int := (245, 206, 66)

/-- `colour_fonts.LIGHT_BLUE`. -/
def LIGHT_BLUE : Int × Int × Int := (200, 234, 247)

/-- The two fonts of `colour_fonts`; their pixel metrics live outside the
embedding and are abstracted by a width function where needed. -/
inductive FontTag where
  | calibri14B
  | calibri24B
deriving DecidableEq, Repr

/-- The `bounds` table of `FireCircle.__init__`, in its insertion order:
acreage lower bound to (colour, radius). -/
def fireBounds : List (Int × ((Int × Int × Int) × Int)) :=
  [(0, (YELLOW, 10)), (10000, (YELLOW, 12)), (20000, (YELLOW, 15)),
   (40000, (ORANGE, 18)), (60000, (ORANGE, 20)), (80000, (RED, 22)),
   (100000, (RED, 25))]

/-- The `for bound in bounds: if self._acreage >= bound:` scan of
`FireCircle.__init__`: the last satisfied entry wins; `none` when no bound is
satisfied (then Python would leave `_colour`/`_radius` unassigned). -/
def fireBoundsScan (acreage : Int) : Option ((Int × Int × Int) × Int) :=
  fireBounds.foldl (fun st p => if p.1 ≤ acreage then some p.2 else st) none

/-- `scrollable_classes.FireCircle`: a fully initialised fire circle.  The
fields mirror the private instance attributes; `x`, `y` are the inherited
`ScrollableObject` coordinates (the circle's centre). -/
structure FireCircle where
  x : Int
  y : Int
  county : String
  acreage : Int
  fires : List CaliFire
  colour : Int × Int × Int
  radius : Int
deriving DecidableEq, Repr

/-- `FireCircle.__init__`.  Returns `none` when `fires` is empty (Python:
`fires[0]` raises `IndexError`) or when no acreage bound is satisfied (Python:
`_colour`/`_radius` would stay unassigned, violating the class's stated
representation invariants); a `some` result is a well-formed circle. -/
def mkFireCircle (x y : Int) (fires : List CaliFire) : Option FireCircle :=
  match fires with
  | [] => none
  | f :: _ =>
    if f.year > 2020 then some ⟨x, y, f.county, 0, fires, LIGHT_RED, 25⟩
    else
      match fireBoundsScan ((fires.map (fun g => g.acreage)).sum) with
      | some p => some ⟨x, y, f.county, (fires.map (fun g => g.acreage)).sum, fires, p.1, p.2⟩
      | none => none

/-- `FireCircle.get_bounds`: top-left corner and side lengths of the square
the circle occupies. -/
def FireCircle.get_bounds (c : FireCircle) : Int × Int × Int × Int :=
  (c.x - c.radius, c.y - c.radius, c.radius * 2, c.radius * 2)

/-- The concrete `ScrollableObject` variants of `scrollable_classes` (the
image's pixel data is external and irrelevant to the claims). -/
inductive ScrollableObject where
  | image (x y : Int)
  | textLabel (x y : Int) (text : String) (font : FontTag) (colour : Int × Int × Int)
  | fireCircle (c : FireCircle)
deriving DecidableEq, Repr

/-- `ScrollableObject.get_coords`. -/
def ScrollableObject.get_coords : ScrollableObject → Int × Int
  | .image x y => (x, y)
  | .textLabel x y _ _ _ => (x, y)
  | .fireCircle c => (c.x, c.y)

/-- `ScrollableObject.translate`. -/
def ScrollableObject.translate : ScrollableObject → Int → Int → ScrollableObject
  | .image x y, dx, dy => .image (x + dx) (y + dy)
  | .textLabel x y t f col, dx, dy => .textLabel (x + dx) (y + dy) t f col
  | .fireCircle c, dx, dy => .fireCircle { c with x := c.x + dx, y := c.y + dy }

/-- `county_mapping.MAPPING`: county name to pixel coordinates on the map. -/
def MAPPING : List (String × (Int × Int)) :=
  [("Ventura", (212, 398)), ("Los Angeles", (248, 399)), ("Santa Barbara", (171, 385)),
   ("Colusa", (90, 155)), ("Sonoma", (57, 182)), ("Mendocino", (41, 129)),
   ("Plumas", (146, 110)), ("Butte", (112, 127)), ("Placer", (151, 157)),
   ("San Bernardino", (330, 376)), ("Inyo", (271, 282)), ("San Francisco", (76, 225)),
   ("San Joaquin", (125, 219)), ("San Luis Obispo", (157, 353)), ("Lassen", (151, 68)),
   ("Tuolumne", (175, 213)), ("Fresno", (172, 287)), ("Amador", (151, 191)),
   ("Riverside", (336, 430)), ("Modoc", (148, 20)), ("Lake", (66, 157)),
   ("Monterey", (128, 316)), ("Shasta", (99, 66)), ("Siskiyou", (76, 19)),
   ("Trinity", (53, 69)), ("Kern", (228, 352)), ("El Dorado", (155, 174)),
   ("Mariposa", (176, 236)), ("San Diego", (314, 469))]

/-- `graphics_functions.WIDTH`, the fixed canvas width. -/
def WIDTH : Int := 800

/-- `TextLabel.centerize_width`: the x coordinate
`int(screen_w / 2 - text_w / 2)` for abstract font metrics `sizeW`. -/
def centerize_x (sizeW : FontTag → String → Nat) (font : FontTag) (text : String)
    (screen_w : Int) : Int :=
  pyInt (Frac.sub (Frac.div (Frac.ofInt screen_w) (Frac.ofInt 2))
                  (Frac.div (Frac.ofInt (sizeW font text)) (Frac.ofInt 2)))

/-- One step of the `fire_dict` grouping loop of `get_counties_on_map` (and,
with causes for values, of the `counties_causes` loop): create the key's empty
list if absent, then append the value. -/
def pyGroupStep [DecidableEq K] (d : List (K × List V)) (k : K) (v : V) :
    List (K × List V) :=
  let d0 := if dictContains d k then d else d ++ [(k, [])]
  d0.map (fun p => if p.1 = k then (p.1, p.2 ++ [v]) else p)

/-- The `for county in fire_dict:` loop of `get_counties_on_map`: look the
county up in `MAPPING` (`KeyError` when absent) and build a `FireCircle` at
the county offset plus the map-image coordinates.  A `none` from
`mkFireCircle` is surfaced as the `IndexError` of `fires[0]` (the grouping
loop never produces an empty record list). -/
def circlesOf (imgx imgy : Int) : List (String × List CaliFire) →
    Except PyError (List FireCircle)
  | [] => .ok []
  | (county, fires) :: rest =>
    match dictLookup MAPPING county with
    | none => .error .keyError
    | some xy =>
      match mkFireCircle (xy.1 + imgx) (xy.2 + imgy) fires with
      | none => .error .indexError
      | some c =>
        match circlesOf imgx imgy rest with
        | .error e => .error e
        | .ok cs => .ok (c :: cs)

/-- The `fire_dict` local of `get_counties_on_map`: the season's top five
grouped by county, in first-appearance order. -/
def fire_dict (season : CaliFireSeason) : List (String × List CaliFire) :=
  season.top_five.foldl (fun d fire => pyGroupStep d fire.county fire) []

/-- `graphics_functions.get_counties_on_map`: group the season's top five by
county (insertion order, multiple fires per county allowed), then one circle
per county. -/
def get_counties_on_map (season : CaliFireSeason) (imgx imgy : Int) :
    Except PyError (List FireCircle) :=
  circlesOf imgx imgy (fire_dict season)

/-- The season-summary text of `get_scrollables_for_season` (the `~`
approximation prefixes appear for forecast seasons). -/
def seasonText (season : CaliFireSeason) : String :=
  if season.year > 2020 then
    "Total # of fires: ~" ++ toString season.fires ++
      "    Total acreage burned: ~" ++ toString season.acreage
  else
    "Total # of fires: " ++ toString season.fires ++
      "    Total acreage burned: " ++ toString season.acreage

/-- The section-title text of `get_scrollables_for_season`. -/
def mapText (season : CaliFireSeason) : String :=
  if season.year > 2020 then "Five Vulnerable Counties:" else "Top Five Fires:"

/-- `graphics_functions.get_scrollables_for_season`: the two centred labels,
the map image, then the county circles. -/
def get_scrollables_for_season (sizeW : FontTag → String → Nat)
    (season : CaliFireSeason) (imgx imgy : Int) :
    Except PyError (List ScrollableObject) :=
  let lbl1 := ScrollableObject.textLabel
    (centerize_x sizeW .calibri24B (seasonText season) WIDTH) 160
    (seasonText season) .calibri24B BLACK
  let lbl2 := ScrollableObject.textLabel
    (centerize_x sizeW .calibri24B (mapText season) WIDTH) 200
    (mapText season) .calibri24B BLACK
  match get_counties_on_map season imgx imgy with
  | .error e => .error e
  | .ok circles =>
    .ok ([lbl1, lbl2, .image imgx imgy] ++ circles.map ScrollableObject.fireCircle)

/-- `graphics_functions.scroll_objects`. -/
def scroll_objects (scrollables : List ScrollableObject) (scroll_amount : Int) :
    List ScrollableObject :=
  scrollables.map (fun o => o.translate 0 scroll_amount)

/-- `graphics_functions.get_mouse_on_fire_circle`: first fire circle whose
bounding box strictly contains the point. -/
def get_mouse_on_fire_circle (x y : Int) :
    List ScrollableObject → Option FireCircle
  | [] => none
  | .fireCircle c :: rest =>
    match c.get_bounds with
    | (cx, cy, w, h) =>
      if cx < x ∧ x < cx + w ∧ cy < y ∧ y < cy + h then some c
      else get_mouse_on_fire_circle x y rest
  | .image _ _ :: rest => get_mouse_on_fire_circle x y rest
  | .textLabel _ _ _ _ _ :: rest => get_mouse_on_fire_circle x y rest

/-- `main.SCROLL_SPEED`. -/
def SCROLL_SPEED : Int := 15

/-- `main.MAX_SCROLL`. -/
def MAX_SCROLL : Int := 600

/-- The scroll-relevant state of `main`'s frame loop: the cumulative
`scroll_amount` and the scene objects. -/
structure ScrollState where
  scroll_amount : Int
  scrollables : List ScrollableObject
deriving DecidableEq, Repr

/-- The signed translation of a `MOUSEBUTTONDOWN` scroll request: button 5
(wheel down) gives direction −1, anything else +1. -/
def scrollTranslate (button5 : Bool) : Int :=
  (if button5 then -1 else 1) * SCROLL_SPEED

/-- `main`'s scroll handling for one `MOUSEBUTTONDOWN` event: apply the
translation only when the resulting cumulative amount stays within
`[0, MAX_SCROLL]`, otherwise refuse and leave everything unchanged. -/
def scroll_step (button5 : Bool) (st : ScrollState) : ScrollState :=
  if 0 ≤ st.scroll_amount - scrollTranslate button5 ∧
      st.scroll_amount - scrollTranslate button5 ≤ MAX_SCROLL then
    { scroll_amount := st.scroll_amount - scrollTranslate button5,
      scrollables := scroll_objects st.scrollables (scrollTranslate button5) }
  else st

/-- A run of `main`'s frame loop restricted to scroll events, from the initial
`scroll_amount = 0`. -/
def scroll_run (objs : List ScrollableObject) (reqs : List Bool) : ScrollState :=
  reqs.foldl (fun st b => scroll_step b st) ⟨0, objs⟩

example : extrapolate_num_fires [2019, 2020] [5000, 6000] 1 = .ok [7000] := by decide
example : extrapolate_acreages [5000, 6000] [1000000, 1500000] [7000] = .ok [2000000] := by
  decide
example : extrapolate_num_fires [2020, 2020] [1, 2] 1 = .error .zeroDivisionError := by
  decide

/-! ## General lemmas about the embedded dictionary and fraction operations -/

lemma translate_get_coords (o : ScrollableObject) (dx dy : Int) :
    (o.translate dx dy).get_coords = (o.get_coords.1 + dx, o.get_coords.2 + dy) := by
  cases o <;> simp [ScrollableObject.translate, ScrollableObject.get_coords]

lemma frac_foldl_add_zero (l : List Frac) (z : Frac) (hz : z.n = 0)
    (hl : ∀ f ∈ l, f.n = 0) : (l.foldl Frac.add z).n = 0 := by
  induction l generalizing z with
  | nil => simpa using hz
  | cons f rest ih =>
    simp only [List.foldl_cons]
    refine ih _ ?_ (fun g hg => hl g (List.mem_cons_of_mem _ hg))
    have hf : f.n = 0 := hl f (List.mem_cons_self _ _)
    simp [Frac.add, hz, hf]

lemma sum_of_allEq (l : List Int) (y : Int) (h : ∀ a ∈ l, a = y) :
    l.sum = l.length * y := by
  induction l with
  | nil => simp
  | cons a rest ih =>
    have ha : a = y := h a (List.mem_cons_self _ _)
    have := ih (fun b hb => h b (List.mem_cons_of_mem _ hb))
    simp [ha, this]
    ring

lemma dictLookup_eq_none_of_contains_false [DecidableEq K] (d : List (K × V)) (k : K)
    (h : dictContains d k = false) : dictLookup d k = none := by
  induction d with
  | nil => rfl
  | cons p rest ih =>
    by_cases hp : p.1 = k
    · simp [dictContains, hp] at h
    · simp only [dictContains, if_neg hp] at h
      simp only [dictLookup, if_neg hp]
      exact ih h

lemma dictLookup_isSome_of_contains [DecidableEq K] (d : List (K × V)) (k : K)
    (h : dictContains d k = true) : ∃ v, dictLookup d k = some v := by
  induction d with
  | nil => simp [dictContains] at h
  | cons p rest ih =>
    by_cases hp : p.1 = k
    · exact ⟨p.2, by simp [dictLookup, hp]⟩
    · simp only [dictContains, if_neg hp] at h
      simpa [dictLookup, if_neg hp] using ih h

lemma dictContains_iff_mem_keys [DecidableEq K] (d : List (K × V)) (k : K) :
    dictContains d k = true ↔ k ∈ d.map Prod.fst := by
  induction d with
  | nil => simp [dictContains]
  | cons p rest ih =>
    by_cases hp : p.1 = k
    · simp [dictContains, hp]
    · simp [dictContains, hp, ih, Ne.symm hp]

lemma dictLookup_append_left [DecidableEq K] (d e : List (K × V)) (k : K) (v : V)
    (h : dictLookup d k = some v) : dictLookup (d ++ e) k = some v := by
  induction d with
  | nil => simp [dictLookup] at h
  | cons p rest ih =>
    by_cases hp : p.1 = k
    · simp only [dictLookup, if_pos hp] at h
      simp [dictLookup, hp, h]
    · simp only [dictLookup, if_neg hp] at h
      simpa [dictLookup, if_neg hp] using ih h

lemma dictLookup_append_right [DecidableEq K] (d e : List (K × V)) (k : K)
    (h : dictLookup d k = none) : dictLookup (d ++ e) k = dictLookup e k := by
  induction d with
  | nil => rfl
  | cons p rest ih =>
    by_cases hp : p.1 = k
    · simp [dictLookup, if_pos hp] at h
    · simp only [dictLookup, if_neg hp] at h
      simpa [dictLookup, if_neg hp] using ih h

lemma dictContains_false_of_keys [DecidableEq K] (d : List (K × V)) (k : K)
    (h : ∀ p ∈ d, p.1 ≠ k) : dictContains d k = false := by
  induction d with
  | nil => rfl
  | cons p rest ih =>
    have hp := h p (List.mem_cons_self _ _)
    simp only [dictContains, if_neg hp]
    exact ih (fun q hq => h q (List.mem_cons_of_mem _ hq))

lemma dictInsert_of_not_contains [DecidableEq K] (d : List (K × V)) (k : K) (v : V)
    (h : dictContains d k = false) : dictInsert d k v = d ++ [(k, v)] := by
  simp [dictInsert, h]

/-! ## C2: zero variance in the regression input -/

/-- C2 (amended): for every non-empty input whose years are all identical
(and whose parallel lists are no longer than the years), `extrapolate_num_fires`
fails with a `ZeroDivisionError` — not with the spec's `DegenerateInputError`,
which exists nowhere in the code — and likewise `extrapolate_acreages` fails
when all historical fire counts are identical; neither returns a result. -/
theorem c2_zero_variance_fails (years fires acreages next_fires : List Int)
    (n : Nat) (y0 f0 : Int) :
    (years ≠ [] → (∀ a ∈ years, a = y0) → fires.length ≤ years.length →
      extrapolate_num_fires years fires n = .error .zeroDivisionError) ∧
    (fires ≠ [] → (∀ a ∈ fires, a = f0) → fires.length ≤ acreages.length →
      extrapolate_acreages fires acreages next_fires = .error .zeroDivisionError) := by
  constructor
  · intro hne heq hlen
    rw [extrapolate_num_fires]
    rcases eq_or_ne fires [] with hf | hf
    · subst hf
      simp
    · have h1 : ¬(years.length = 0 ∨ fires.length = 0) := by
        push_neg
        exact ⟨by simpa using hne, by simpa using hf⟩
      have h2 : ¬(years.length < fires.length) := not_lt.mpr hlen
      have hzero : (varianceSum years).n = 0 := by
        refine frac_foldl_add_zero _ _ rfl ?_
        intro f hf'
        rcases List.mem_map.mp hf' with ⟨yr, hyr, rfl⟩
        have hy : yr = y0 := heq yr hyr
        have hs : years.sum = years.length * y0 := sum_of_allEq years y0 heq
        simp [Frac.mul, Frac.sub, Frac.div, Frac.ofInt, avgF, hy, hs]
        ring
      rw [if_neg h1, if_neg h2, if_pos hzero]
  · intro hne heq hlen
    rw [extrapolate_acreages]
    rcases eq_or_ne acreages [] with ha | ha
    · subst ha
      simp
    · have h1 : ¬(fires.length = 0 ∨ acreages.length = 0) := by
        push_neg
        exact ⟨by simpa using hne, by simpa using ha⟩
      have h2 : ¬(acreages.length < fires.length) := not_lt.mpr hlen
      have hzero : (varianceSum fires).n = 0 := by
        refine frac_foldl_add_zero _ _ rfl ?_
        intro f hf'
        rcases List.mem_map.mp hf' with ⟨fc, hfc, rfl⟩
        have hy : fc = f0 := heq fc hfc
        have hs : fires.sum = fires.length * f0 := sum_of_allEq fires f0 heq
        simp [Frac.mul, Frac.sub, Frac.div, Frac.ofInt, avgF, hy, hs]
        ring
      rw [if_neg h1, if_neg h2, if_pos hzero]

/-- C2 counterexample: on a degenerate input the code raises
`ZeroDivisionError`, which is not the `DegenerateInputError` the spec
claims (no such error exists in the code). -/
theorem c2_counterexample :
    extrapolate_num_fires [2020, 2020] [1, 2] 1 = .error .zeroDivisionError ∧
    extrapolate_num_fires [2020, 2020] [1, 2] 1 ≠ .error .degenerateInputError ∧
    extrapolate_acreages [5, 5] [1, 2] [3] = .error .zeroDivisionError ∧
    extrapolate_acreages [5, 5] [1, 2] [3] ≠ .error .degenerateInputError := by
  decide

/-- C2 witness: the amended theorem applied at a concrete degenerate input. -/
theorem c2_witness :
    extrapolate_num_fires [2020, 2020] [3, 4] 2 = .error .zeroDivisionError ∧
    extrapolate_acreages [7, 7] [10, 20] [5] = .error .zeroDivisionError := by
  refine ⟨?_, ?_⟩
  · exact (c2_zero_variance_fails [2020, 2020] [3, 4] [] [] 2 2020 0).1
      (by decide) (by decide) (by decide)
  · exact (c2_zero_variance_fails [] [7, 7] [10, 20] [5] 0 0 7).2
      (by decide) (by decide) (by decide)

/-! ## C8: translate is additive and order-independent -/

/-- C8: `translate` is additive and order-independent: any sequence of
translations moves `get_coords` by the componentwise sums, two translations
commute, and compose into a single translation of the summed offsets. -/
theorem c8_translate_additive (o : ScrollableObject) (l : List (Int × Int))
    (d1 d2 : Int × Int) :
    (l.foldl (fun a d => a.translate d.1 d.2) o).get_coords =
      (o.get_coords.1 + (l.map Prod.fst).sum,
       o.get_coords.2 + (l.map Prod.snd).sum) ∧
    (o.translate d1.1 d1.2).translate d2.1 d2.2 =
      (o.translate d2.1 d2.2).translate d1.1 d1.2 ∧
    (o.translate d1.1 d1.2).translate d2.1 d2.2 =
      o.translate (d1.1 + d2.1) (d1.2 + d2.2) := by
  refine ⟨?_, ?_, ?_⟩
  · induction l generalizing o with
    | nil => simp
    | cons d rest ih =>
      simp only [List.foldl_cons, List.map_cons, List.sum_cons]
      rw [ih (o.translate d.1 d.2), translate_get_coords]
      simp
      constructor <;> ring
  · cases o <;> simp [ScrollableObject.translate] <;> constructor <;> ring
  · cases o <;> simp [ScrollableObject.translate] <;> constructor <;> ring

/-! ## C7: the scroll offset invariant -/

lemma scroll_step_bounds (b : Bool) (st : ScrollState)
    (h0 : 0 ≤ st.scroll_amount) (h6 : st.scroll_amount ≤ MAX_SCROLL) :
    0 ≤ (scroll_step b st).scroll_amount ∧
      (scroll_step b st).scroll_amount ≤ MAX_SCROLL := by
  unfold scroll_step
  split_ifs with h
  · exact ⟨h.1, h.2⟩
  · exact ⟨h0, h6⟩

lemma scroll_foldl_bounds (reqs : List Bool) (st : ScrollState)
    (h0 : 0 ≤ st.scroll_amount) (h6 : st.scroll_amount ≤ MAX_SCROLL) :
    0 ≤ (reqs.foldl (fun s b => scroll_step b s) st).scroll_amount ∧
      (reqs.foldl (fun s b => scroll_step b s) st).scroll_amount ≤ MAX_SCROLL := by
  induction reqs generalizing st with
  | nil => exact ⟨h0, h6⟩
  | cons b rest ih =>
    simp only [List.foldl_cons]
    have := scroll_step_bounds b st h0 h6
    exact ih _ this.1 this.2

/-- C7: with maximum 600 and step 15, the cumulative scroll offset stays in
`[0, 600]`: one scroll event preserves the bounds, an out-of-bounds request is
refused leaving the whole state (offset and every object position) unchanged,
an upward request at offset 0 leaves it at 0, and any run of the frame loop
from offset 0 stays within the bounds. -/
theorem c7_scroll_invariant (st : ScrollState) (b : Bool)
    (objs : List ScrollableObject) (reqs : List Bool) :
    (MAX_SCROLL = 600 ∧ SCROLL_SPEED = 15) ∧
    (0 ≤ st.scroll_amount → st.scroll_amount ≤ 600 →
      0 ≤ (scroll_step b st).scroll_amount ∧ (scroll_step b st).scroll_amount ≤ 600) ∧
    (¬(0 ≤ st.scroll_amount - scrollTranslate b ∧
        st.scroll_amount - scrollTranslate b ≤ 600) → scroll_step b st = st) ∧
    (st.scroll_amount = 0 → scroll_step false st = st) ∧
    (0 ≤ (scroll_run objs reqs).scroll_amount ∧
      (scroll_run objs reqs).scroll_amount ≤ 600) := by
  have hmax : MAX_SCROLL = 600 := rfl
  refine ⟨⟨rfl, rfl⟩, ?_, ?_, ?_, ?_⟩
  · intro h0 h6
    have := scroll_step_bounds b st h0 (by rw [hmax]; exact h6)
    exact ⟨this.1, by rw [← hmax]; exact this.2⟩
  · intro h
    unfold scroll_step
    rw [if_neg]
    rw [hmax]
    exact h
  · intro h
    unfold scroll_step
    rw [if_neg]
    rw [h]
    simp [scrollTranslate, SCROLL_SPEED]
  · have := scroll_foldl_bounds reqs ⟨0, objs⟩ (by simp) (by simp [hmax])
    exact ⟨this.1, by rw [← hmax]; exact (by exact this.2)⟩

/-- C7 witness: the invariant theorem applied at concrete states: a step from
the in-bounds state 0, a refused request at 605, and an upward request at 0. -/
theorem c7_witness :
    (0 ≤ (scroll_step true ⟨0, []⟩).scroll_amount ∧
      (scroll_step true ⟨0, []⟩).scroll_amount ≤ 600) ∧
    scroll_step true ⟨595, []⟩ = ⟨595, []⟩ ∧
    scroll_step false ⟨0, [ScrollableObject.image 3 4]⟩ = ⟨0, [ScrollableObject.image 3 4]⟩ ∧
    (0 ≤ (scroll_run [] [true, true, false]).scroll_amount ∧
      (scroll_run [] [true, true, false]).scroll_amount ≤ 600) := by
  refine ⟨?_, ?_, ?_, ?_⟩
  · exact (c7_scroll_invariant ⟨0, []⟩ true [] []).2.1 (by decide) (by decide)
  · exact (c7_scroll_invariant ⟨595, []⟩ true [] []).2.2.1 (by decide)
  · exact (c7_scroll_invariant ⟨0, [ScrollableObject.image 3 4]⟩ false [] []).2.2.2.1 rfl
  · exact (c7_scroll_invariant ⟨0, []⟩ true [] [true, true, false]).2.2.2.2

/-! ## C3: prediction only adds future entries -/

lemma extrapolate_num_fires_length (years fires : List Int) (n : Nat)
    (out : List Int) (h : extrapolate_num_fires years fires n = .ok out) :
    out.length = n := by
  rw [extrapolate_num_fires] at h
  split_ifs at h
  all_goals first
    | exact Except.noConfusion h
    | (injection h with h'
       rw [← h']
       simp)

lemma extrapolate_acreages_length (fires acreages next_fires : List Int)
    (out : List Int) (h : extrapolate_acreages fires acreages next_fires = .ok out) :
    out.length = next_fires.length := by
  rw [extrapolate_acreages] at h
  split_ifs at h
  all_goals first
    | exact Except.noConfusion h
    | (injection h with h'
       rw [← h']
       simp)

lemma predictLoop_frame (A : List String) (C : List (String × List String))
    (σ : Nat → Nat) (pairs : List (Int × Int)) :
    ∀ (year : Int) (k : Nat) (d m : List (Int × CaliFireSeason)),
      (∀ p ∈ d, p.1 < year) →
      predictLoop A C σ year k pairs d = .ok m →
      ∃ extra, m = d ++ extra ∧
        ∀ q ∈ extra, year ≤ q.1 ∧ q.1 < year + pairs.length := by
  induction pairs with
  | nil =>
    intro year k d m _ hm
    injection hm with hm'
    exact ⟨[], by simp [hm'], by simp⟩
  | cons p rest ih =>
    intro year k d m hd hm
    rcases p with ⟨fires, acreage⟩
    rw [predictLoop] at hm
    split at hm
    · exact Except.noConfusion hm
    · rename_i tf htf
      have hnc : dictContains d year = false :=
        dictContains_false_of_keys d year (fun q hq => ne_of_lt (hd q hq))
      rw [dictInsert_of_not_contains d year _ hnc] at hm
      have hd' : ∀ q ∈ d ++ [(year, (⟨year, fires, acreage, tf⟩ : CaliFireSeason))],
          q.1 < year + 1 := by
        intro q hq
        rcases List.mem_append.mp hq with hq | hq
        · exact lt_trans (hd q hq) (by omega)
        · have hq' : q = (year, (⟨year, fires, acreage, tf⟩ : CaliFireSeason)) := by
            simpa using hq
          rw [hq']
          exact lt_add_one _
      rcases ih (year + 1) (k + 10) _ m hd' hm with ⟨extra, hme, hext⟩
      refine ⟨(year, ⟨year, fires, acreage, tf⟩) :: extra, by simpa using hme, ?_⟩
      intro q hq
      rcases List.mem_cons.mp hq with rfl | hq

      · constructor
        · exact le_refl _
        · simp
      · have := hext q hq
        constructor
        · omega
        · have h2 := this.2
          simp only [List.length_cons]
          omega

/-- C3: for a non-empty season dict whose keys are all at most 2020 and any
`n > 0`, a successful `predict_fire_season_data` run only adds entries for
years in 2021 … 2020+n: every historical year still looks up to its original
season, and every key of the result is either historical or in that range. -/
theorem c3_predict_preserves_history (seasons : List (Int × CaliFireSeason))
    (n : Nat) (σ : Nat → Nat) (m : List (Int × CaliFireSeason))
    (hne : seasons ≠ []) (hkeys : ∀ p ∈ seasons, p.1 ≤ 2020) (hn : 0 < n)
    (hok : predict_fire_season_data seasons n σ = .ok m) :
    (∀ y ∈ seasons.map Prod.fst, dictLookup m y = dictLookup seasons y) ∧
    (∀ y ∈ m.map Prod.fst,
      y ∈ seasons.map Prod.fst ∨ (2021 ≤ y ∧ y ≤ 2020 + (n : Int))) := by
  rw [predict_fire_season_data] at hok
  split at hok
  · exact Except.noConfusion hok
  · rename_i next_fires hnf
    split at hok
    · exact Except.noConfusion hok
    · rename_i next_acreages hna
      have hlen : (next_fires.zip next_acreages).length = n := by
        have h1 := extrapolate_num_fires_length _ _ _ _ hnf
        have h2 := extrapolate_acreages_length _ _ _ _ hna
        simp [List.length_zip, h1, h2]
      have hd : ∀ p ∈ seasons, p.1 < (2021 : Int) := by
        intro p hp
        have := hkeys p hp
        omega
      rcases predictLoop_frame _ _ σ _ 2021 0 seasons m hd hok with ⟨extra, rfl, hext⟩
      constructor
      · intro y hy
        rcases List.mem_map.mp hy with ⟨p, hp, rfl⟩
        have hc : dictContains seasons p.1 = true :=
          (dictContains_iff_mem_keys seasons p.1).mpr (List.mem_map_of_mem _ hp)
        rcases dictLookup_isSome_of_contains seasons p.1 hc with ⟨v, hv⟩
        rw [dictLookup_append_left seasons extra p.1 v hv, hv]
      · intro y hy
        rw [List.map_append] at hy
        rcases List.mem_append.mp hy with hy | hy
        · exact Or.inl hy
        · rcases List.mem_map.mp hy with ⟨q, hq, rfl⟩
          have := hext q hq
          rw [hlen] at this
          exact Or.inr ⟨this.1, by omega⟩

/-- The oracle that always draws index 0, used by concrete witnesses. -/
def zeroOracle : Nat → Nat := fun _ => 0

/-- A concrete 2019 top five (valid records over mapped counties). -/
def topFive2019 : List CaliFire :=
  [⟨2019, "Butte", 150000, "Lightning", 100⟩, ⟨2019, "Shasta", 90000, "Arson", 40⟩,
   ⟨2019, "Kern", 60000, "Unknown", 10⟩, ⟨2019, "Lake", 30000, "Lightning", 5⟩,
   ⟨2019, "Butte", 20000, "Campfire", 3⟩]

/-- A concrete 2020 top five (valid records over mapped counties). -/
def topFive2020 : List CaliFire :=
  [⟨2020, "Fresno", 200000, "Lightning", 120⟩, ⟨2020, "Butte", 95000, "Powerlines", 60⟩,
   ⟨2020, "Shasta", 70000, "Arson", 20⟩, ⟨2020, "Monterey", 45000, "Unknown", 8⟩,
   ⟨2020, "Kern", 30000, "Lightning", 2⟩]

/-- The two-season history of claim C1: 2019 with (5000 fires, 1000000 acres)
and 2020 with (6000 fires, 1500000 acres). -/
def seasonsC1 : List (Int × CaliFireSeason) :=
  [(2019, ⟨2019, 5000, 1000000, topFive2019⟩), (2020, ⟨2020, 6000, 1500000, topFive2020⟩)]

/-- The season `predict_fire_season_data seasonsC1 1 zeroOracle` inserts for
2021 (the all-zero oracle always draws Butte and Lightning). -/
def seasonPred2021 : CaliFireSeason :=
  ⟨2021, 7000, 2000000,
   [⟨2021, "Butte", 90000, "Lightning", 32⟩, ⟨2021, "Butte", 90000, "Lightning", 32⟩,
    ⟨2021, "Butte", 90000, "Lightning", 32⟩, ⟨2021, "Butte", 90000, "Lightning", 32⟩,
    ⟨2021, "Butte", 90000, "Lightning", 32⟩]⟩

/-! ## Lemmas about the random draws and the county/cause collection -/

lemma randomChoice_ok (σ : Nat → Nat) (k : Nat) (l : List α) (h : l ≠ []) :
    ∃ a, randomChoice σ k l = .ok a ∧ a ∈ l := by
  have hlen : 0 < l.length := List.length_pos.mpr h
  have hmod : σ k % l.length < l.length := Nat.mod_lt _ hlen
  refine ⟨l.get ⟨σ k % l.length, hmod⟩, ?_, List.get_mem _ _ _⟩
  rw [randomChoice, List.get?_eq_get hmod]

lemma chooseCounties_ok (σ : Nat → Nat) (counties : List String)
    (h : counties ≠ []) : ∀ (m k : Nat),
    ∃ out, chooseCounties σ counties k m = .ok out ∧ out.length = m ∧
      ∀ c ∈ out, c ∈ counties := by
  intro m
  induction m with
  | zero => exact fun k => ⟨[], rfl, rfl, by simp⟩
  | succ m ih =>
    intro k
    rcases randomChoice_ok σ k counties h with ⟨c, hc, hcm⟩
    rcases ih (k + 1) with ⟨out, hout, hlen, hsub⟩
    refine ⟨c :: out, ?_, by simp [hlen], ?_⟩
    · rw [chooseCounties, hc, hout]
    · intro c' hc'
      rcases List.mem_cons.mp hc' with rfl | hc'
      · exact hcm
      · exact hsub c' hc'

/-- The decidable check that a county has a non-empty cause list in
`counties_causes` (the shape `predict_next_top_five` relies on). -/
def ccHasCauses (counties_causes : List (String × List String)) (c : String) : Bool :=
  match dictLookup counties_causes c with
  | some vs => !vs.isEmpty
  | none => false

lemma ccHasCauses_spec (counties_causes : List (String × List String)) (c : String)
    (h : ccHasCauses counties_causes c = true) :
    ∃ vs, dictLookup counties_causes c = some vs ∧ vs ≠ [] := by
  unfold ccHasCauses at h
  cases hl : dictLookup counties_causes c with
  | none => rw [hl] at h; cases h
  | some vs =>
    rw [hl] at h
    cases vs with
    | nil => simp at h
    | cons a t => exact ⟨a :: t, rfl, by simp⟩

lemma buildTopFive_ok (year : Int) (counties_causes : List (String × List String))
    (σ : Nat → Nat) (k : Nat) : ∀ (cs : List String) (j : Nat),
    (∀ c ∈ cs, ccHasCauses counties_causes c = true) →
    ∃ tf, buildTopFive year counties_causes σ k cs j = .ok tf ∧
      tf.length = cs.length ∧
      ∀ r ∈ tf, r.year = year ∧ r.acreage = 90000 ∧ r.structures_destroyed = 32 ∧
        r.county ∈ cs ∧
        ∃ vs, dictLookup counties_causes r.county = some vs ∧ r.cause ∈ vs := by
  intro cs
  induction cs with
  | nil => exact fun j _ => ⟨[], rfl, rfl, by simp⟩
  | cons c rest ih =>
    intro j hcs
    rcases ccHasCauses_spec counties_causes c (hcs c (List.mem_cons_self _ _)) with
      ⟨vs, hvs, hvne⟩
    rcases randomChoice_ok σ (k + 5 + j) vs hvne with ⟨cause, hch, hmem⟩
    rcases ih (j + 1) (fun c' hc' => hcs c' (List.mem_cons_of_mem _ hc')) with
      ⟨tf, htf, hlen, hrec⟩
    refine ⟨⟨year, c, 90000, cause, 32⟩ :: tf, ?_, by simp [hlen], ?_⟩
    · rw [buildTopFive, hvs]
      simp only [predict_cause, hch, htf]
    · intro r hr
      rcases List.mem_cons.mp hr with rfl | hr
      · exact ⟨rfl, rfl, rfl, List.mem_cons_self _ _, vs, hvs, hmem⟩
      · obtain ⟨h1, h2, h3, h4, h5⟩ := hrec r hr
        exact ⟨h1, h2, h3, List.mem_cons_of_mem _ h4, h5⟩

lemma predict_next_top_five_ok (year : Int) (counties : List String)
    (counties_causes : List (String × List String)) (σ : Nat → Nat) (k : Nat)
    (hne : counties ≠ [])
    (hcc : ∀ c ∈ counties, ccHasCauses counties_causes c = true) :
    ∃ tf, predict_next_top_five year counties counties_causes σ k = .ok tf ∧
      tf.length = 5 ∧
      ∀ r ∈ tf, r.year = year ∧ r.acreage = 90000 ∧ r.structures_destroyed = 32 ∧
        r.county ∈ counties ∧
        ∃ vs, dictLookup counties_causes r.county = some vs ∧ r.cause ∈ vs := by
  rcases chooseCounties_ok σ counties hne 5 k with ⟨five, hfive, hlen5, hsub⟩
  rcases buildTopFive_ok year counties_causes σ k five 0
      (fun c hc => hcc c (hsub c hc)) with ⟨tf, htf, hlen, hrec⟩
  refine ⟨tf, ?_, by rw [hlen, hlen5], ?_⟩
  · rw [predict_next_top_five, predict_next_five_counties, hfive]
    exact htf
  · intro r hr
    obtain ⟨h1, h2, h3, h4, h5⟩ := hrec r hr
    exact ⟨h1, h2, h3, hsub _ h4, h5⟩

/-! ## Lemmas about the grouping folds -/

lemma dictLookup_mapUpdate [DecidableEq K] (d : List (K × List V)) (k k' : K)
    (v : V) :
    dictLookup (d.map (fun p : K × List V =>
        if p.1 = k then (p.1, p.2 ++ [v]) else p)) k' =
      if k' = k then (dictLookup d k).map (fun vs => vs ++ [v])
      else dictLookup d k' := by
  induction d with
  | nil => by_cases h : k' = k <;> simp [dictLookup, h]
  | cons p rest ih =>
    by_cases hp : p.1 = k
    · by_cases hk : k' = k
      · simp [dictLookup, hp, hk, hp.trans hk.symm]
      · have hpk' : p.1 ≠ k' := fun h => hk (h.symm.trans hp)
        have hk2 : k ≠ k' := fun h => hk h.symm
        simp [dictLookup, hp, hk, hk2, hpk', ih]
    · by_cases hpk' : p.1 = k'
      · have hk : k' ≠ k := fun h => hp (hpk'.trans h)
        simp [dictLookup, hp, hpk', hk]
      · simp [dictLookup, hp, hpk', ih]

lemma pyGroupStep_contains [DecidableEq K] (d : List (K × List V)) (k : K) (v : V)
    (h : dictContains d k = true) :
    pyGroupStep d k v = d.map (fun p : K × List V =>
      if p.1 = k then (p.1, p.2 ++ [v]) else p) := by
  simp [pyGroupStep, h]

lemma pyGroupStep_not_contains [DecidableEq K] (d : List (K × List V)) (k : K) (v : V)
    (h : dictContains d k = false) :
    pyGroupStep d k v =
      (d ++ [(k, [])]).map (fun p : K × List V =>
        if p.1 = k then (p.1, p.2 ++ [v]) else p) := by
  simp [pyGroupStep, h]

lemma dictLookup_pyGroupStep [DecidableEq K] (d : List (K × List V)) (k k' : K)
    (v : V) :
    dictLookup (pyGroupStep d k v) k' =
      if k' = k then some (((dictLookup d k).getD []) ++ [v])
      else dictLookup d k' := by
  cases hct : dictContains d k with
  | true =>
    rw [pyGroupStep_contains d k v hct, dictLookup_mapUpdate]
    rcases dictLookup_isSome_of_contains d k hct with ⟨vs, hvs⟩
    by_cases hk : k' = k <;> simp [hk, hvs]
  | false =>
    rw [pyGroupStep_not_contains d k v hct, dictLookup_mapUpdate]
    have hnone := dictLookup_eq_none_of_contains_false d k hct
    by_cases hk : k' = k
    · rw [if_pos hk, if_pos hk, hnone,
        dictLookup_append_right d [(k, [])] k hnone]
      simp [dictLookup]
    · rw [if_neg hk, if_neg hk]
      cases hl : dictLookup d k' with
      | some vs => exact dictLookup_append_left d [(k, [])] k' vs hl
      | none =>
        rw [dictLookup_append_right d [(k, [])] k' hl]
        have hk2 : ¬k = k' := fun h => hk h.symm
        simp [dictLookup, hk2, hl]

lemma dictLookup_groupFold [DecidableEq K] (key : A → K) (val : A → V) :
    ∀ (l : List A) (d0 : List (K × List V)) (k : K),
    dictLookup (l.foldl (fun d a => pyGroupStep d (key a) (val a)) d0) k =
      match dictLookup d0 k with
      | some vs => some (vs ++ (l.filter (fun a => decide (key a = k))).map val)
      | none =>
        if (l.filter (fun a => decide (key a = k))).isEmpty then none
        else some ((l.filter (fun a => decide (key a = k))).map val) := by
  intro l
  induction l with
  | nil =>
    intro d0 k
    cases hl : dictLookup d0 k <;> simp [hl]
  | cons a rest ih =>
    intro d0 k
    rw [List.foldl_cons, ih]
    rw [dictLookup_pyGroupStep]
    by_cases hk : k = key a
    · rw [if_pos hk]
      have hfil : (a :: rest).filter (fun a => decide (key a = k)) =
          a :: rest.filter (fun a => decide (key a = k)) := by
        rw [List.filter_cons, if_pos (by simp [hk.symm])]
      cases hl : dictLookup d0 k with
      | some vs =>
        have hl' : dictLookup d0 (key a) = some vs := hk ▸ hl
        simp [hl, hl', hfil]
      | none =>
        have hl' : dictLookup d0 (key a) = none := hk ▸ hl
        simp [hl, hl', hfil]
    · rw [if_neg hk]
      have hfil : (a :: rest).filter (fun a => decide (key a = k)) =
          rest.filter (fun a => decide (key a = k)) := by
        rw [List.filter_cons, if_neg (by simpa using fun h => hk h.symm)]
      rw [hfil]

lemma keys_mapUpdate [DecidableEq K] (d : List (K × List V)) (k : K) (v : V) :
    ((d.map (fun p : K × List V =>
        if p.1 = k then (p.1, p.2 ++ [v]) else p)).map Prod.fst) =
      d.map Prod.fst := by
  induction d with
  | nil => rfl
  | cons p rest ih =>
    by_cases hp : p.1 = k <;> simp [hp, ih]

lemma keys_pyGroupStep [DecidableEq K] (d : List (K × List V)) (k : K) (v : V) :
    (pyGroupStep d k v).map Prod.fst =
      if dictContains d k then d.map Prod.fst else d.map Prod.fst ++ [k] := by
  cases hct : dictContains d k with
  | true => rw [pyGroupStep_contains d k v hct, if_pos rfl, keys_mapUpdate]
  | false =>
    rw [pyGroupStep_not_contains d k v hct, if_neg (by simp), keys_mapUpdate]
    simp

lemma keys_groupFold_mem [DecidableEq K] (key : A → K) (val : A → V) :
    ∀ (l : List A) (d0 : List (K × List V)) (k : K),
    (k ∈ (l.foldl (fun d a => pyGroupStep d (key a) (val a)) d0).map Prod.fst ↔
      k ∈ d0.map Prod.fst ∨ ∃ a ∈ l, key a = k) := by
  intro l
  induction l with
  | nil => intro d0 k; simp
  | cons a rest ih =>
    intro d0 k
    rw [List.foldl_cons, ih]
    rw [keys_pyGroupStep]
    cases hct : dictContains d0 (key a) with
    | true =>
      rw [if_pos rfl]
      constructor
      · rintro (h | h)
        · exact Or.inl h
        · exact Or.inr (by simpa using Or.inr (by simpa using h))
      · rintro (h | ⟨b, hb, hkb⟩)
        · exact Or.inl h
        · rcases List.mem_cons.mp hb with rfl | hb
          · exact Or.inl (by
              rw [← hkb]
              exact (dictContains_iff_mem_keys d0 (key b)).mp hct)
          · exact Or.inr ⟨b, hb, hkb⟩
    | false =>
      rw [if_neg (by simp)]
      simp only [List.mem_append, List.mem_singleton]
      constructor
      · rintro ((h | h) | h)
        · exact Or.inl h
        · exact Or.inr ⟨a, List.mem_cons_self _ _, h.symm⟩
        · rcases h with ⟨b, hb, hkb⟩
          exact Or.inr ⟨b, List.mem_cons_of_mem _ hb, hkb⟩
      · rintro (h | ⟨b, hb, hkb⟩)
        · exact Or.inl (Or.inl h)
        · rcases List.mem_cons.mp hb with rfl | hb
          · exact Or.inl (Or.inr hkb.symm)
          · exact Or.inr ⟨b, hb, hkb⟩

lemma keys_groupFold_nodup [DecidableEq K] (key : A → K) (val : A → V) :
    ∀ (l : List A) (d0 : List (K × List V)),
    (d0.map Prod.fst).Nodup →
    ((l.foldl (fun d a => pyGroupStep d (key a) (val a)) d0).map Prod.fst).Nodup := by
  intro l
  induction l with
  | nil => exact fun d0 h => h
  | cons a rest ih =>
    intro d0 h
    rw [List.foldl_cons]
    refine ih _ ?_
    rw [keys_pyGroupStep]
    cases hct : dictContains d0 (key a) with
    | true => rw [if_pos rfl]; exact h
    | false =>
      rw [if_neg (by simp)]
      rw [List.nodup_append]
      refine ⟨h, List.nodup_singleton _, ?_⟩
      intro x hx hx'
      have hxa : x = key a := List.mem_singleton.mp hx'
      rw [hxa] at hx
      have hc2 : dictContains d0 (key a) = true :=
        (dictContains_iff_mem_keys d0 (key a)).mpr hx
      rw [hct] at hc2
      cases hc2

lemma dictLookup_of_mem_nodup [DecidableEq K] (d : List (K × V)) (p : K × V)
    (hnd : (d.map Prod.fst).Nodup) (hp : p ∈ d) : dictLookup d p.1 = some p.2 := by
  induction d with
  | nil => cases hp
  | cons q rest ih =>
    rcases List.mem_cons.mp hp with rfl | hp
    · simp [dictLookup]
    · have hq : q.1 ≠ p.1 := by
        intro h
        have : q.1 ∈ rest.map Prod.fst := h ▸ List.mem_map_of_mem _ hp
        rw [List.map_cons, List.nodup_cons] at hnd
        exact hnd.1 this
      rw [dictLookup, if_neg hq]
      exact ih (by
        rw [List.map_cons, List.nodup_cons] at hnd
        exact hnd.2) hp

/-- All top-five records of all seasons, in iteration order of the nested
collection loop of `predict_fire_season_data`. -/
def allFires (seasons : List (Int × CaliFireSeason)) : List CaliFire :=
  (seasons.map (fun p => p.2.top_five)).flatten

lemma foldl_nested_eq_flatten (seasons : List (Int × CaliFireSeason))
    (acc : List String × List (String × List String)) :
    seasons.foldl (fun acc p => p.2.top_five.foldl collectStep acc) acc =
      (allFires seasons).foldl collectStep acc := by
  induction seasons generalizing acc with
  | nil => rfl
  | cons p rest ih =>
    simp only [allFires, List.foldl_cons, List.map_cons, List.flatten_cons,
      List.foldl_append]
    exact ih _

lemma collect_fst (fires : List CaliFire) :
    ∀ acc, (fires.foldl collectStep acc).1 = acc.1 ++ fires.map (fun f => f.county) := by
  induction fires with
  | nil => intro acc; simp
  | cons f rest ih =>
    intro acc
    rw [List.foldl_cons, ih]
    simp [collectStep]

lemma collect_snd (fires : List CaliFire) :
    ∀ acc, (fires.foldl collectStep acc).2 =
      fires.foldl (fun d f => pyGroupStep d f.county f.cause) acc.2 := by
  induction fires with
  | nil => intro acc; rfl
  | cons f rest ih =>
    intro acc
    rw [List.foldl_cons, List.foldl_cons, ih]
    rfl

lemma all_counties_of_eq (seasons : List (Int × CaliFireSeason)) :
    all_counties_of seasons = (allFires seasons).map (fun f => f.county) := by
  unfold all_counties_of
  rw [foldl_nested_eq_flatten, collect_fst]
  rfl

lemma counties_causes_of_eq (seasons : List (Int × CaliFireSeason)) :
    counties_causes_of seasons =
      (allFires seasons).foldl (fun d f => pyGroupStep d f.county f.cause) [] := by
  unfold counties_causes_of
  rw [foldl_nested_eq_flatten, collect_snd]

lemma counties_causes_lookup (seasons : List (Int × CaliFireSeason)) (c : String) :
    dictLookup (counties_causes_of seasons) c =
      if ((allFires seasons).filter (fun f => decide (f.county = c))).isEmpty then none
      else some (((allFires seasons).filter
        (fun f => decide (f.county = c))).map (fun f => f.cause)) := by
  rw [counties_causes_of_eq]
  have := dictLookup_groupFold (fun f : CaliFire => f.county)
    (fun f : CaliFire => f.cause) (allFires seasons) [] c
  simpa [dictLookup] using this

lemma ccHasCauses_of (counties_causes : List (String × List String)) (c : String)
    (vs : List String) (h : dictLookup counties_causes c = some vs) (hne : vs ≠ []) :
    ccHasCauses counties_causes c = true := by
  unfold ccHasCauses
  rw [h]
  cases vs with
  | nil => exact absurd rfl hne
  | cons a t => rfl

lemma mem_allFires (seasons : List (Int × CaliFireSeason)) (f : CaliFire) :
    f ∈ allFires seasons ↔ ∃ p ∈ seasons, f ∈ p.2.top_five := by
  unfold allFires
  rw [List.mem_flatten]
  constructor
  · rintro ⟨l, hl, hf⟩
    rcases List.mem_map.mp hl with ⟨p, hp, rfl⟩
    exact ⟨p, hp, hf⟩
  · rintro ⟨p, hp, hf⟩
    exact ⟨p.2.top_five, List.mem_map_of_mem _ hp, hf⟩

/-! ## C9: the weighted sampling population is safe -/

lemma all_counties_causes_ok (seasons : List (Int × CaliFireSeason)) :
    ∀ c ∈ all_counties_of seasons,
      ∃ vs, dictLookup (counties_causes_of seasons) c = some vs ∧ vs ≠ [] := by
  intro c hc
  rw [all_counties_of_eq] at hc
  rcases List.mem_map.mp hc with ⟨f, hf, rfl⟩
  have hfil : f ∈ (allFires seasons).filter (fun g => decide (g.county = f.county)) :=
    List.mem_filter.mpr ⟨hf, by simp⟩
  have hnonempty :
      ((allFires seasons).filter (fun g => decide (g.county = f.county))).isEmpty = false := by
    cases he : (allFires seasons).filter (fun g => decide (g.county = f.county)) with
    | nil => rw [he] at hfil; cases hfil
    | cons a t => rfl
  rw [counties_causes_lookup, hnonempty, if_neg (by simp)]
  refine ⟨_, rfl, ?_⟩
  simp only [ne_eq, List.map_eq_nil_iff]
  intro he
  rw [he] at hfil
  cases hfil

/-- C9: every county in the sampling population `all_counties` has a non-empty
cause list in `counties_causes`, so the lookups inside
`predict_next_top_five` cannot fail for any oracle, and every synthetic
record's county and cause occur in some historical season's top five (for the
same county). -/
theorem c9_sampling_population_safe (seasons : List (Int × CaliFireSeason))
    (σ : Nat → Nat) (k : Nat) (year : Int) :
    (∀ c ∈ all_counties_of seasons,
      ∃ vs, dictLookup (counties_causes_of seasons) c = some vs ∧ vs ≠ []) ∧
    (all_counties_of seasons ≠ [] →
      ∃ tf, predict_next_top_five year (all_counties_of seasons)
          (counties_causes_of seasons) σ k = .ok tf ∧
        ∀ r ∈ tf,
          (∃ p ∈ seasons, ∃ f ∈ p.2.top_five, f.county = r.county) ∧
          (∃ p ∈ seasons, ∃ f ∈ p.2.top_five,
            f.county = r.county ∧ f.cause = r.cause)) := by
  refine ⟨all_counties_causes_ok seasons, ?_⟩
  intro hne
  have hcc : ∀ c ∈ all_counties_of seasons,
      ccHasCauses (counties_causes_of seasons) c = true := by
    intro c hc
    rcases all_counties_causes_ok seasons c hc with ⟨vs, hvs, hvne⟩
    exact ccHasCauses_of _ c vs hvs hvne
  rcases predict_next_top_five_ok year _ _ σ k hne hcc with ⟨tf, htf, _, hrec⟩
  refine ⟨tf, htf, ?_⟩
  intro r hr
  obtain ⟨_, _, _, hcounty, vs, hvs, hcause⟩ := hrec r hr
  constructor
  · rw [all_counties_of_eq] at hcounty
    rcases List.mem_map.mp hcounty with ⟨f, hf, hfc⟩
    rcases (mem_allFires seasons f).mp hf with ⟨p, hp, hptf⟩
    exact ⟨p, hp, f, hptf, hfc⟩
  · rw [counties_causes_lookup] at hvs
    by_cases he :
        ((allFires seasons).filter (fun f => decide (f.county = r.county))).isEmpty
    · rw [if_pos he] at hvs
      cases hvs
    · rw [if_neg he] at hvs
      injection hvs with hvs'
      rw [← hvs'] at hcause
      rcases List.mem_map.mp hcause with ⟨f, hf, hfc⟩
      have hf' := List.mem_filter.mp hf
      rcases (mem_allFires seasons f).mp hf'.1 with ⟨p, hp, hptf⟩
      exact ⟨p, hp, f, hptf, by simpa using hf'.2, hfc⟩

/-- C3 witness: the frame theorem applied to a concrete successful run. -/
theorem c3_witness :
    (∀ y ∈ seasonsC1.map Prod.fst,
      dictLookup (seasonsC1 ++ [((2021 : Int), seasonPred2021)]) y =
        dictLookup seasonsC1 y) ∧
    (∀ y ∈ (seasonsC1 ++ [((2021 : Int), seasonPred2021)]).map Prod.fst,
      y ∈ seasonsC1.map Prod.fst ∨ (2021 ≤ y ∧ y ≤ 2020 + ((1 : Nat) : Int))) :=
  c3_predict_preserves_history seasonsC1 1 zeroOracle
    (seasonsC1 ++ [(2021, seasonPred2021)])
    (by decide) (by decide) (by decide) (by decide)

/-- C9 witness: the safety theorem applied to the concrete two-season history
(`Butte` is in its sampling population). -/
theorem c9_witness :
    (∃ vs, dictLookup (counties_causes_of seasonsC1) "Butte" = some vs ∧ vs ≠ []) ∧
    (∃ tf, predict_next_top_five 2021 (all_counties_of seasonsC1)
        (counties_causes_of seasonsC1) zeroOracle 0 = .ok tf ∧
      ∀ r ∈ tf,
        (∃ p ∈ seasonsC1, ∃ f ∈ p.2.top_five, f.county = r.county) ∧
        (∃ p ∈ seasonsC1, ∃ f ∈ p.2.top_five,
          f.county = r.county ∧ f.cause = r.cause)) :=
  ⟨(c9_sampling_population_safe seasonsC1 zeroOracle 0 2021).1 "Butte" (by decide),
   (c9_sampling_population_safe seasonsC1 zeroOracle 0 2021).2 (by decide)⟩

/-! ## C1: the end-to-end two-season forecast -/

/-- C1: for the two-season history (2019: 5000 fires, 1000000 acres;
2020: 6000 fires, 1500000 acres) and `n = 1`, `predict_fire_season_data`
succeeds for every random oracle and adds a 2021 season whose `fires` field is
exactly 7000 (the two-point linear extrapolation `6000 + (6000 - 5000)`) and
whose `top_five` is a list of exactly 5 records, each with year 2021,
acreage 90000 and 32 structures destroyed. -/
theorem c1_two_season_forecast (σ : Nat → Nat) :
    ∃ m s, predict_fire_season_data seasonsC1 1 σ = .ok m ∧
      dictLookup m 2021 = some s ∧ s.fires = 7000 ∧ s.top_five.length = 5 ∧
      ∀ r ∈ s.top_five,
        r.year = 2021 ∧ r.acreage = 90000 ∧ r.structures_destroyed = 32 := by
  have hne : all_counties_of seasonsC1 ≠ [] := by decide
  have hcc : ∀ c ∈ all_counties_of seasonsC1,
      ccHasCauses (counties_causes_of seasonsC1) c = true := by decide
  rcases predict_next_top_five_ok 2021 (all_counties_of seasonsC1)
      (counties_causes_of seasonsC1) σ 0 hne hcc with ⟨tf, htf, hlen, hrec⟩
  refine ⟨seasonsC1 ++ [(2021, ⟨2021, 7000, 2000000, tf⟩)],
    ⟨2021, 7000, 2000000, tf⟩, ?_, ?_, rfl, hlen,
    fun r hr => ⟨(hrec r hr).1, (hrec r hr).2.1, (hrec r hr).2.2.1⟩⟩
  · rw [predict_fire_season_data]
    have h1 : extrapolate_num_fires (seasonsC1.map fun p => p.2.year)
        (seasonsC1.map fun p => p.2.fires) 1 = .ok [7000] := by decide
    have h2 : extrapolate_acreages (seasonsC1.map fun p => p.2.fires)
        (seasonsC1.map fun p => p.2.acreage) [7000] = .ok [2000000] := by decide
    simp only [h1, h2]
    have hzip : List.zip [(7000 : Int)] [(2000000 : Int)] = [(7000, 2000000)] := rfl
    rw [hzip, predictLoop]
    simp only [htf]
    rw [predictLoop]
    have hni : dictContains seasonsC1 (2021 : Int) = false := by decide
    rw [dictInsert_of_not_contains seasonsC1 2021 _ hni]
  · have hnone : dictLookup seasonsC1 (2021 : Int) = none := by decide
    rw [dictLookup_append_right seasonsC1 _ 2021 hnone]
    simp [dictLookup]

/-- C1 witness: the forecast theorem instantiated at the all-zero oracle. -/
theorem c1_witness :
    ∃ m s, predict_fire_season_data seasonsC1 1 zeroOracle = .ok m ∧
      dictLookup m 2021 = some s ∧ s.fires = 7000 ∧ s.top_five.length = 5 ∧
      ∀ r ∈ s.top_five,
        r.year = 2021 ∧ r.acreage = 90000 ∧ r.structures_destroyed = 32 :=
  c1_two_season_forecast zeroOracle

/-! ## C4 and C10: FireCircle colour/radius thresholds -/

lemma fireBoundsScan_eq (acreage : Int) :
    fireBoundsScan acreage =
      if 100000 ≤ acreage then some (RED, 25)
      else if 80000 ≤ acreage then some (RED, 22)
      else if 60000 ≤ acreage then some (ORANGE, 20)
      else if 40000 ≤ acreage then some (ORANGE, 18)
      else if 20000 ≤ acreage then some (YELLOW, 15)
      else if 10000 ≤ acreage then some (YELLOW, 12)
      else if 0 ≤ acreage then some (YELLOW, 10)
      else none := rfl

lemma fireBoundsScan_highest (acreage : Int) (h : 0 ≤ acreage) :
    ∃ b cr, fireBoundsScan acreage = some cr ∧ (b, cr) ∈ fireBounds ∧
      b ≤ acreage ∧ ∀ e ∈ fireBounds, e.1 ≤ acreage → e.1 ≤ b := by
  rw [fireBoundsScan_eq]
  rcases le_or_lt 100000 acreage with h7 | h7
  · rw [if_pos h7]
    refine ⟨100000, _, rfl, by decide, h7, ?_⟩
    intro e he hle
    fin_cases he <;> simp_all <;> omega
  · rw [if_neg (not_le.mpr h7)]
    rcases le_or_lt 80000 acreage with h6 | h6
    · rw [if_pos h6]
      refine ⟨80000, _, rfl, by decide, h6, ?_⟩
      intro e he hle
      fin_cases he <;> simp_all <;> omega
    · rw [if_neg (not_le.mpr h6)]
      rcases le_or_lt 60000 acreage with h5 | h5
      · rw [if_pos h5]
        refine ⟨60000, _, rfl, by decide, h5, ?_⟩
        intro e he hle
        fin_cases he <;> simp_all <;> omega
      · rw [if_neg (not_le.mpr h5)]
        rcases le_or_lt 40000 acreage with h4 | h4
        · rw [if_pos h4]
          refine ⟨40000, _, rfl, by decide, h4, ?_⟩
          intro e he hle
          fin_cases he <;> simp_all <;> omega
        · rw [if_neg (not_le.mpr h4)]
          rcases le_or_lt 20000 acreage with h3 | h3
          · rw [if_pos h3]
            refine ⟨20000, _, rfl, by decide, h3, ?_⟩
            intro e he hle
            fin_cases he <;> simp_all <;> omega
          · rw [if_neg (not_le.mpr h3)]
            rcases le_or_lt 10000 acreage with h2 | h2
            · rw [if_pos h2]
              refine ⟨10000, _, rfl, by decide, h2, ?_⟩
              intro e he hle
              fin_cases he <;> simp_all <;> omega
            · rw [if_neg (not_le.mpr h2), if_pos h]
              refine ⟨0, _, rfl, by decide, h, ?_⟩
              intro e he hle
              fin_cases he <;> simp_all <;> omega

lemma mkFireCircle_some (x y : Int) (f0 : CaliFire) (rest : List CaliFire)
    (hpos : ∀ f ∈ f0 :: rest, 0 < f.acreage) :
    ∃ c, mkFireCircle x y (f0 :: rest) = some c ∧
      c.x = x ∧ c.y = y ∧ c.county = f0.county ∧ c.fires = f0 :: rest ∧
      c.radius ∈ ([10, 12, 15, 18, 20, 22, 25] : List Int) := by
  by_cases hy : f0.year > 2020
  · refine ⟨⟨x, y, f0.county, 0, f0 :: rest, LIGHT_RED, 25⟩, ?_, rfl, rfl, rfl, rfl,
      by simp⟩
    simp only [mkFireCircle]
    rw [if_pos hy]
  · have hs : 0 ≤ ((f0 :: rest).map (fun g => g.acreage)).sum := by
      refine List.sum_nonneg ?_
      intro a ha
      rcases List.mem_map.mp ha with ⟨g, hg, rfl⟩
      exact le_of_lt (hpos g hg)
    rcases fireBoundsScan_highest _ hs with ⟨b, cr, hscan, hmem, _, _⟩
    refine ⟨⟨x, y, f0.county, ((f0 :: rest).map (fun g => g.acreage)).sum,
        f0 :: rest, cr.1, cr.2⟩, ?_, rfl, rfl, rfl, rfl, ?_⟩
    · simp only [mkFireCircle]
      rw [if_neg hy, hscan]
    · simp only [fireBounds, List.mem_cons, List.mem_singleton, Prod.mk.injEq,
        List.not_mem_nil, or_false] at hmem
      rcases hmem with ⟨_, rfl⟩ | ⟨_, rfl⟩ | ⟨_, rfl⟩ | ⟨_, rfl⟩ | ⟨_, rfl⟩ |
        ⟨_, rfl⟩ | ⟨_, rfl⟩ <;> simp

/-- C4: a historical `FireCircle` (first record's year at most 2020, valid
acreages) gets its colour and radius from the highest satisfied lower bound of
the threshold table applied to the accumulated acreage of its records; at
accumulated acreage 39999 that is (yellow, 15), at 40000 (orange, 18), at
150000 (red, 25); a forecast circle (first record's year above 2020) is
light-red with radius 25 regardless of acreage. -/
theorem c4_fire_circle_thresholds (x y : Int) (f0 : CaliFire)
    (rest : List CaliFire) :
    (f0.year ≤ 2020 → 0 ≤ ((f0 :: rest).map (fun g => g.acreage)).sum →
      ∃ c b, mkFireCircle x y (f0 :: rest) = some c ∧
        c.acreage = ((f0 :: rest).map (fun g => g.acreage)).sum ∧
        (b, (c.colour, c.radius)) ∈ fireBounds ∧ b ≤ c.acreage ∧
        ∀ e ∈ fireBounds, e.1 ≤ c.acreage → e.1 ≤ b) ∧
    (f0.year > 2020 →
      mkFireCircle x y (f0 :: rest) =
        some ⟨x, y, f0.county, 0, f0 :: rest, LIGHT_RED, 25⟩) ∧
    ((mkFireCircle 0 0 [⟨2020, "Kern", 39999, "Arson", 1⟩]).map
        (fun c => (c.colour, c.radius)) = some (YELLOW, 15)) ∧
    ((mkFireCircle 0 0 [⟨2020, "Kern", 40000, "Arson", 1⟩]).map
        (fun c => (c.colour, c.radius)) = some (ORANGE, 18)) ∧
    ((mkFireCircle 0 0 [⟨2020, "Kern", 150000, "Arson", 1⟩]).map
        (fun c => (c.colour, c.radius)) = some (RED, 25)) := by
  refine ⟨?_, ?_, by decide, by decide, by decide⟩
  · intro hy hs
    rcases fireBoundsScan_highest _ hs with ⟨b, cr, hscan, hmem, hble, hmax⟩
    refine ⟨⟨x, y, f0.county, ((f0 :: rest).map (fun g => g.acreage)).sum,
        f0 :: rest, cr.1, cr.2⟩, b, ?_, rfl, hmem, hble, hmax⟩
    simp only [mkFireCircle]
    rw [if_neg (not_lt.mpr hy), hscan]
  · intro hy
    simp only [mkFireCircle]
    rw [if_pos hy]

/-- C4 witness: the threshold theorem applied at a concrete historical record
list (accumulated acreage 39999) and a concrete forecast record list. -/
theorem c4_witness :
    (∃ c b, mkFireCircle 0 0 [⟨2020, "Kern", 39999, "Arson", 1⟩] = some c ∧
      c.acreage = 39999 ∧
      (b, (c.colour, c.radius)) ∈ fireBounds ∧ b ≤ c.acreage ∧
      ∀ e ∈ fireBounds, e.1 ≤ c.acreage → e.1 ≤ b) ∧
    mkFireCircle 5 6 [⟨2021, "Kern", 1, "Arson", 1⟩] =
      some ⟨5, 6, "Kern", 0, [⟨2021, "Kern", 1, "Arson", 1⟩], LIGHT_RED, 25⟩ :=
  ⟨(c4_fire_circle_thresholds 0 0 ⟨2020, "Kern", 39999, "Arson", 1⟩ []).1
      (by decide) (by decide),
   (c4_fire_circle_thresholds 5 6 ⟨2021, "Kern", 1, "Arson", 1⟩ []).2.1 (by decide)⟩

/-- C10: for a non-empty record list with positive acreages,
`FireCircle.__init__` always assigns a colour and radius (both branches), the
radius is one of {10, 12, 15, 18, 20, 22, 25}, and `get_bounds` returns a
square with equal side lengths of at least 20 (hence positive). -/
theorem c10_fire_circle_wellformed (x y : Int) (f0 : CaliFire)
    (rest : List CaliFire) (hpos : ∀ f ∈ f0 :: rest, 0 < f.acreage) :
    ∃ c, mkFireCircle x y (f0 :: rest) = some c ∧
      c.radius ∈ ([10, 12, 15, 18, 20, 22, 25] : List Int) ∧
      (∃ bx bY w h, c.get_bounds = (bx, bY, w, h) ∧ w = h ∧ 20 ≤ w ∧ 0 < w) := by
  rcases mkFireCircle_some x y f0 rest hpos with ⟨c, hc, _, _, _, _, hr⟩
  have hr' : c.radius = 10 ∨ c.radius = 12 ∨ c.radius = 15 ∨ c.radius = 18 ∨
      c.radius = 20 ∨ c.radius = 22 ∨ c.radius = 25 := by
    simpa using hr
  refine ⟨c, hc, hr, c.x - c.radius, c.y - c.radius, c.radius * 2, c.radius * 2,
    rfl, rfl, ?_, ?_⟩ <;>
    rcases hr' with h | h | h | h | h | h | h <;> omega

/-- C10 witness: the well-formedness theorem applied to a concrete record
list. -/
theorem c10_witness :
    ∃ c, mkFireCircle 7 8 [⟨2019, "Kern", 55000, "Arson", 2⟩] = some c ∧
      c.radius ∈ ([10, 12, 15, 18, 20, 22, 25] : List Int) ∧
      (∃ bx bY w h, c.get_bounds = (bx, bY, w, h) ∧ w = h ∧ 20 ≤ w ∧ 0 < w) :=
  c10_fire_circle_wellformed 7 8 ⟨2019, "Kern", 55000, "Arson", 2⟩ [] (by decide)

/-! ## C5: the mouse hit test -/

/-- The bounding box of a circle strictly contains the point: the box has
top-left `(cx - r, cy - r)` and sides `2r`, and the inequalities are strict. -/
def strictlyInBox (c : FireCircle) (x y : Int) : Prop :=
  c.x - c.radius < x ∧ x < (c.x - c.radius) + c.radius * 2 ∧
  c.y - c.radius < y ∧ y < (c.y - c.radius) + c.radius * 2

instance (c : FireCircle) (x y : Int) : Decidable (strictlyInBox c x y) :=
  inferInstanceAs (Decidable (_ ∧ _ ∧ _ ∧ _))

/-- The spec's `hitTest`: the first (draw-order) FireCircle among the objects
whose bounding box strictly contains the point, stated declaratively as the
head of the filtered list. -/
def hitTest (x y : Int) (objs : List ScrollableObject) : Option FireCircle :=
  (objs.filterMap (fun o =>
    match o with
    | .fireCircle c => if strictlyInBox c x y then some c else none
    | _ => none)).head?

/-- C5: `get_mouse_on_fire_circle` returns exactly the spec's `hitTest` (the
first fire circle, in list order, whose box strictly contains the point); if
no fire circle's box strictly contains the point it returns `none`; and a
point exactly on the left edge of a circle's bounding box is not a hit. -/
theorem c5_get_mouse_on_fire_circle (x y : Int) (objs : List ScrollableObject)
    (c : FireCircle) (y' : Int) :
    get_mouse_on_fire_circle x y objs = hitTest x y objs ∧
    ((∀ o ∈ objs, ∀ c', o = .fireCircle c' → ¬strictlyInBox c' x y) →
      get_mouse_on_fire_circle x y objs = none) ∧
    get_mouse_on_fire_circle (c.x - c.radius) y' [.fireCircle c] = none := by
  refine ⟨?_, ?_, ?_⟩
  · induction objs with
    | nil => rfl
    | cons o rest ih =>
      cases o with
      | image ix iy =>
        simpa [get_mouse_on_fire_circle, hitTest, List.filterMap_cons] using ih
      | textLabel tx ty t f col =>
        simpa [get_mouse_on_fire_circle, hitTest, List.filterMap_cons] using ih
      | fireCircle c' =>
        by_cases h : strictlyInBox c' x y
        · simp only [get_mouse_on_fire_circle, FireCircle.get_bounds, hitTest,
            List.filterMap_cons, if_pos h]
          rw [if_pos]
          · rfl
          · exact ⟨h.1, h.2.1, h.2.2.1, h.2.2.2⟩
        · simp only [get_mouse_on_fire_circle, FireCircle.get_bounds, hitTest,
            List.filterMap_cons, if_neg h]
          rw [if_neg]
          · exact ih
          · exact fun hx => h ⟨hx.1, hx.2.1, hx.2.2.1, hx.2.2.2⟩
  · intro hnone
    induction objs with
    | nil => rfl
    | cons o rest ih =>
      cases o with
      | image ix iy =>
        exact ih (fun o ho c' hc' => hnone o (List.mem_cons_of_mem _ ho) c' hc')
      | textLabel tx ty t f col =>
        exact ih (fun o ho c' hc' => hnone o (List.mem_cons_of_mem _ ho) c' hc')
      | fireCircle c' =>
        have h : ¬strictlyInBox c' x y :=
          hnone _ (List.mem_cons_self _ _) c' rfl
        simp only [get_mouse_on_fire_circle, FireCircle.get_bounds]
        rw [if_neg]
        · exact ih (fun o ho c'' hc'' => hnone o (List.mem_cons_of_mem _ ho) c'' hc'')
        · exact fun hx => h ⟨hx.1, hx.2.1, hx.2.2.1, hx.2.2.2⟩
  · simp only [get_mouse_on_fire_circle, FireCircle.get_bounds]
    rw [if_neg (fun hx => absurd hx.1 (lt_irrefl _))]

/-- C5 witness: the hit-test theorem applied at a concrete point and object
list (the point (100, 100) is outside the circle's box; the point on the left
edge is rejected). -/
theorem c5_witness :
    get_mouse_on_fire_circle 100 100
      [.fireCircle ⟨0, 0, "Kern", 1000, [], YELLOW, 10⟩] = none ∧
    get_mouse_on_fire_circle (-10) 3
      [.fireCircle ⟨0, 0, "Kern", 1000, [], YELLOW, 10⟩] = none :=
  ⟨(c5_get_mouse_on_fire_circle 100 100
      [.fireCircle ⟨0, 0, "Kern", 1000, [], YELLOW, 10⟩]
      ⟨0, 0, "Kern", 1000, [], YELLOW, 10⟩ 0).2.1
    (by
      intro o ho c' hc'
      rcases List.mem_singleton.mp ho with rfl
      cases hc'
      decide),
   (c5_get_mouse_on_fire_circle 0 0 []
      ⟨0, 0, "Kern", 1000, [], YELLOW, 10⟩ 3).2.2⟩

/-! ## C6: the scrollables produced for a season -/

lemma fire_dict_keys_nodup (season : CaliFireSeason) :
    ((fire_dict season).map Prod.fst).Nodup :=
  keys_groupFold_nodup (fun f : CaliFire => f.county) (fun f : CaliFire => f)
    season.top_five [] List.nodup_nil

lemma fire_dict_keys_mem (season : CaliFireSeason) (k : String) :
    k ∈ (fire_dict season).map Prod.fst ↔ ∃ f ∈ season.top_five, f.county = k := by
  have := keys_groupFold_mem (fun f : CaliFire => f.county) (fun f : CaliFire => f)
    season.top_five [] k
  simpa [fire_dict] using this

lemma fire_dict_lookup (season : CaliFireSeason) (k : String) :
    dictLookup (fire_dict season) k =
      if (season.top_five.filter (fun f => decide (f.county = k))).isEmpty then none
      else some (season.top_five.filter (fun f => decide (f.county = k))) := by
  have := dictLookup_groupFold (fun f : CaliFire => f.county) (fun f : CaliFire => f)
    season.top_five [] k
  simpa [fire_dict, dictLookup, List.map_id'] using this

lemma fire_dict_entries (season : CaliFireSeason) (p : String × List CaliFire)
    (hp : p ∈ fire_dict season) :
    p.2 = season.top_five.filter (fun f => decide (f.county = p.1)) ∧ p.2 ≠ [] := by
  have hl := dictLookup_of_mem_nodup _ p (fire_dict_keys_nodup season) hp
  rw [fire_dict_lookup] at hl
  by_cases he : (season.top_five.filter (fun f => decide (f.county = p.1))).isEmpty
  · rw [if_pos he] at hl
    cases hl
  · rw [if_neg he] at hl
    injection hl with hl'
    refine ⟨hl'.symm, ?_⟩
    rw [← hl']
    intro hnil
    rw [hnil] at he
    exact he rfl

lemma circlesOf_ok (imgx imgy : Int) : ∀ (pairs : List (String × List CaliFire)),
    (∀ p ∈ pairs, p.2 ≠ [] ∧ (∀ f ∈ p.2, f.county = p.1 ∧ 0 < f.acreage) ∧
      dictContains MAPPING p.1 = true) →
    ∃ cs, circlesOf imgx imgy pairs = .ok cs ∧
      cs.map (fun c => c.county) = pairs.map Prod.fst ∧
      ∀ c ∈ cs, ∃ q, q ∈ pairs ∧ q.1 = c.county ∧
        ∃ xy, dictLookup MAPPING c.county = some xy ∧
          mkFireCircle (xy.1 + imgx) (xy.2 + imgy) q.2 = some c := by
  intro pairs
  induction pairs with
  | nil => exact fun _ => ⟨[], rfl, rfl, by simp⟩
  | cons q rest ih =>
    rcases q with ⟨k, vs⟩
    intro hyp
    obtain ⟨hne, hall, hct⟩ := hyp (k, vs) (List.mem_cons_self _ _)
    rcases dictLookup_isSome_of_contains MAPPING k hct with ⟨xy, hxy⟩
    cases vs with
    | nil => exact absurd rfl hne
    | cons f0 vtail =>
      have hpos : ∀ f ∈ f0 :: vtail, 0 < f.acreage := fun f hf => (hall f hf).2
      rcases mkFireCircle_some (xy.1 + imgx) (xy.2 + imgy) f0 vtail hpos with
        ⟨c, hc, _, _, hcounty, _, _⟩
      rcases ih (fun p hp => hyp p (List.mem_cons_of_mem _ hp)) with
        ⟨cs, hcs, hmap, hrec⟩
      have hc0 : f0.county = k := (hall f0 (List.mem_cons_self _ _)).1
      have hck : c.county = k := hcounty.trans hc0
      refine ⟨c :: cs, ?_, ?_, ?_⟩
      · rw [circlesOf, hxy]
        simp only [hc, hcs]
      · simp [hmap, hck]
      · intro c' hc'
        rcases List.mem_cons.mp hc' with rfl | hc'
        · exact ⟨(k, f0 :: vtail), List.mem_cons_self _ _, hck.symm, xy,
            by rw [hck]; exact hxy, hc⟩
        · rcases hrec c' hc' with ⟨q', hq', hq1, xy', hxy', hmk⟩
          exact ⟨q', List.mem_cons_of_mem _ hq', hq1, xy', hxy', hmk⟩

lemma circlesOf_keyError (imgx imgy : Int) : ∀ (pairs : List (String × List CaliFire)),
    (∀ p ∈ pairs, p.2 ≠ [] ∧ ∀ f ∈ p.2, f.county = p.1 ∧ 0 < f.acreage) →
    (∃ p ∈ pairs, dictContains MAPPING p.1 = false) →
    circlesOf imgx imgy pairs = .error .keyError := by
  intro pairs
  induction pairs with
  | nil => rintro _ ⟨p, hp, _⟩; cases hp
  | cons q rest ih =>
    rcases q with ⟨k, vs⟩
    rintro hyp ⟨p, hp, hpf⟩
    cases hct : dictContains MAPPING k with
    | false =>
      have hnone := dictLookup_eq_none_of_contains_false MAPPING k hct
      rw [circlesOf, hnone]
    | true =>
      have hprest : p ∈ rest ∧ dictContains MAPPING p.1 = false := by
        rcases List.mem_cons.mp hp with rfl | hpr
        · rw [hct] at hpf
          cases hpf
        · exact ⟨hpr, hpf⟩
      obtain ⟨hne, hall⟩ := hyp (k, vs) (List.mem_cons_self _ _)
      cases vs with
      | nil => exact absurd rfl hne
      | cons f0 vtail =>
        rcases dictLookup_isSome_of_contains MAPPING k hct with ⟨xy, hxy⟩
        rcases mkFireCircle_some (xy.1 + imgx) (xy.2 + imgy) f0 vtail
            (fun f hf => (hall f hf).2) with ⟨c, hc, _⟩
        have hrest := ih (fun p' hp' => hyp p' (List.mem_cons_of_mem _ hp'))
          ⟨p, hprest.1, hprest.2⟩
        rw [circlesOf, hxy]
        simp only [hc, hrest]

lemma get_counties_ok (season : CaliFireSeason) (imgx imgy : Int)
    (hpos : ∀ f ∈ season.top_five, 0 < f.acreage)
    (hm : ∀ f ∈ season.top_five, dictContains MAPPING f.county = true) :
    ∃ circles, get_counties_on_map season imgx imgy = .ok circles ∧
      (circles.map (fun c => c.county)).Nodup ∧
      (∀ cty, cty ∈ circles.map (fun c => c.county) ↔
        ∃ f ∈ season.top_five, f.county = cty) ∧
      ∀ c ∈ circles, ∃ xy, dictLookup MAPPING c.county = some xy ∧
        mkFireCircle (xy.1 + imgx) (xy.2 + imgy)
          (season.top_five.filter (fun f => decide (f.county = c.county))) = some c := by
  have hyp : ∀ p ∈ fire_dict season, p.2 ≠ [] ∧
      (∀ f ∈ p.2, f.county = p.1 ∧ 0 < f.acreage) ∧
      dictContains MAPPING p.1 = true := by
    intro p hp
    obtain ⟨hfil, hne⟩ := fire_dict_entries season p hp
    refine ⟨hne, ?_, ?_⟩
    · intro f hf
      rw [hfil] at hf
      have hmf := List.mem_filter.mp hf
      exact ⟨by simpa using hmf.2, hpos f hmf.1⟩
    · have hk : p.1 ∈ (fire_dict season).map Prod.fst := List.mem_map_of_mem _ hp
      rcases (fire_dict_keys_mem season p.1).mp hk with ⟨f, hf, hfc⟩
      rw [← hfc]
      exact hm f hf
  rcases circlesOf_ok imgx imgy (fire_dict season) hyp with ⟨cs, hcs, hmap, hrec⟩
  refine ⟨cs, ?_, ?_, ?_, ?_⟩
  · rw [get_counties_on_map]
    exact hcs
  · rw [hmap]
    exact fire_dict_keys_nodup season
  · intro cty
    rw [hmap]
    exact fire_dict_keys_mem season cty
  · intro c hc
    rcases hrec c hc with ⟨q, hq, hq1, xy, hxy, hmk⟩
    obtain ⟨hfil, _⟩ := fire_dict_entries season q hq
    refine ⟨xy, hxy, ?_⟩
    rw [← hq1, ← hfil]
    exact hmk

/-- C6 (amended): for a season with valid acreages whose counties all have
map coordinates, `get_scrollables_for_season` produces, in draw order, the
centred season-summary label, the centred section-title label, the map image,
and one fire circle per distinct county of the top five, each built from that
county's record subset at the map origin plus the county's pixel offset; for
a forecast season (year > 2020) the summary text carries `~` markers and the
title reads "Five Vulnerable Counties:".  When some county of the top five has
no `MAPPING` entry the call fails with a `KeyError` — not with the spec's
`UnknownCountyError`, which exists nowhere in the code. -/
theorem c6_scrollables_for_season (sizeW : FontTag → String → Nat)
    (season : CaliFireSeason) (imgx imgy : Int) :
    ((∀ f ∈ season.top_five, 0 < f.acreage) →
     (∀ f ∈ season.top_five, dictContains MAPPING f.county = true) →
      ∃ circles : List FireCircle,
        get_scrollables_for_season sizeW season imgx imgy =
          .ok ([ScrollableObject.textLabel
                  (centerize_x sizeW .calibri24B (seasonText season) WIDTH) 160
                  (seasonText season) .calibri24B BLACK,
                ScrollableObject.textLabel
                  (centerize_x sizeW .calibri24B (mapText season) WIDTH) 200
                  (mapText season) .calibri24B BLACK,
                ScrollableObject.image imgx imgy] ++
            circles.map ScrollableObject.fireCircle) ∧
        (circles.map (fun c => c.county)).Nodup ∧
        (∀ cty, cty ∈ circles.map (fun c => c.county) ↔
          ∃ f ∈ season.top_five, f.county = cty) ∧
        (∀ c ∈ circles, ∃ xy, dictLookup MAPPING c.county = some xy ∧
          mkFireCircle (xy.1 + imgx) (xy.2 + imgy)
            (season.top_five.filter (fun f => decide (f.county = c.county))) =
              some c)) ∧
    ((∀ f ∈ season.top_five, 0 < f.acreage) →
     (∃ f ∈ season.top_five, dictContains MAPPING f.county = false) →
      get_scrollables_for_season sizeW season imgx imgy = .error .keyError) ∧
    (season.year > 2020 →
      seasonText season = "Total # of fires: ~" ++ toString season.fires ++
        "    Total acreage burned: ~" ++ toString season.acreage ∧
      mapText season = "Five Vulnerable Counties:") ∧
    (season.year ≤ 2020 →
      seasonText season = "Total # of fires: " ++ toString season.fires ++
        "    Total acreage burned: " ++ toString season.acreage ∧
      mapText season = "Top Five Fires:") := by
  refine ⟨?_, ?_, ?_, ?_⟩
  · intro hpos hmap
    rcases get_counties_ok season imgx imgy hpos hmap with ⟨cs, hcs, h1, h2, h3⟩
    refine ⟨cs, ?_, h1, h2, h3⟩
    rw [get_scrollables_for_season, hcs]
  · intro hpos hmiss
    have hyp : ∀ p ∈ fire_dict season, p.2 ≠ [] ∧
        ∀ f ∈ p.2, f.county = p.1 ∧ 0 < f.acreage := by
      intro p hp
      obtain ⟨hfil, hne⟩ := fire_dict_entries season p hp
      refine ⟨hne, ?_⟩
      intro f hf
      rw [hfil] at hf
      have hmf := List.mem_filter.mp hf
      exact ⟨by simpa using hmf.2, hpos f hmf.1⟩
    rcases hmiss with ⟨f, hf, hfc⟩
    have hk : f.county ∈ (fire_dict season).map Prod.fst :=
      (fire_dict_keys_mem season f.county).mpr ⟨f, hf, rfl⟩
    rcases List.mem_map.mp hk with ⟨p, hp, hpk⟩
    have herr := circlesOf_keyError imgx imgy (fire_dict season) hyp
      ⟨p, hp, by rw [hpk]; exact hfc⟩
    rw [get_scrollables_for_season, get_counties_on_map, herr]
  · intro hy
    constructor
    · rw [seasonText, if_pos hy]
    · rw [mapText, if_pos hy]
  · intro hy
    constructor
    · rw [seasonText, if_neg (not_lt.mpr hy)]
    · rw [mapText, if_neg (not_lt.mpr hy)]

/-- A concrete one-fire season over a mapped county. -/
def seasonButte : CaliFireSeason := ⟨2019, 10, 100, [⟨2019, "Butte", 50, "Arson", 1⟩]⟩

/-- A concrete one-fire season over a county absent from `MAPPING`. -/
def seasonAtlantis : CaliFireSeason :=
  ⟨2019, 10, 100, [⟨2019, "Atlantis", 50, "Arson", 1⟩]⟩

/-- C6 counterexample: a county without a `MAPPING` entry makes
`get_scrollables_for_season` fail with `KeyError`, which is not the
`UnknownCountyError` the spec claims (no such error exists in the code). -/
theorem c6_counterexample :
    get_scrollables_for_season (fun _ _ => 0) seasonAtlantis 190 240 =
      .error .keyError ∧
    get_scrollables_for_season (fun _ _ => 0) seasonAtlantis 190 240 ≠
      .error .unknownCountyError := by decide

/-- C6 witness: the amended theorem applied to a concrete mapped season and a
concrete unmapped season. -/
theorem c6_witness :
    (∃ circles : List FireCircle,
      get_scrollables_for_season (fun _ _ => 0) seasonButte 190 240 =
        .ok ([ScrollableObject.textLabel
                (centerize_x (fun _ _ => 0) .calibri24B (seasonText seasonButte) WIDTH)
                160 (seasonText seasonButte) .calibri24B BLACK,
              ScrollableObject.textLabel
                (centerize_x (fun _ _ => 0) .calibri24B (mapText seasonButte) WIDTH)
                200 (mapText seasonButte) .calibri24B BLACK,
              ScrollableObject.image 190 240] ++
          circles.map ScrollableObject.fireCircle) ∧
      (circles.map (fun c => c.county)).Nodup ∧
      (∀ cty, cty ∈ circles.map (fun c => c.county) ↔
        ∃ f ∈ seasonButte.top_five, f.county = cty) ∧
      (∀ c ∈ circles, ∃ xy, dictLookup MAPPING c.county = some xy ∧
        mkFireCircle (xy.1 + 190) (xy.2 + 240)
          (seasonButte.top_five.filter (fun f => decide (f.county = c.county))) =
            some c)) ∧
    get_scrollables_for_season (fun _ _ => 0) seasonAtlantis 190 240 =
      .error .keyError :=
  ⟨(c6_scrollables_for_season (fun _ _ => 0) seasonButte 190 240).1
      (by decide) (by decide),
   (c6_scrollables_for_season (fun _ _ => 0) seasonAtlantis 190 240).2.1
      (by decide) ⟨⟨2019, "Atlantis", 50, "Arson", 1⟩, by decide, by decide⟩⟩
